import Mathlib

/-!
Verification development for the DynAPI dynamic query engine.

The definitions below are a shallow embedding of the TypeScript sources:
`ValidationService` (security/validation.service.ts), `DynamicQueryService`
(dynamic-query.service.ts), `WritePermissionsService`
(security/write-permissions.service.ts), and the two controllers
(`DynamicQueryController.parseAndValidateFilters/parseAndValidateJoins/queryData`,
`CrudController.createRecord/updateRecord/deleteRecord`).

JavaScript-specific behaviour is modelled explicitly: `String.split`,
`String.trim`, `parseInt`, value truthiness (empty string and 0 are falsy),
and the fixed regular expressions of the validation layer (modelled as a
small pattern matcher over lowercased character lists, mirroring the /i
flag).  Strings are handled through their underlying character lists
(`String.data`), integers as `Int`, JS numbers that may be NaN as `JNum`.
-/

/-! ## Basic string helpers (JS semantics) -/

/-- JS whitespace class `\s`, restricted to its ASCII members (the inputs in
this development are ASCII). -/
def wsChar (c : Char) : Bool :=
  c = ' ' || c = '\t' || c = '\n' || c = '\r' || c = '\x0b' || c = '\x0c'

/-- `String.prototype.split(sep)` on character lists: JS `"".split(s)` is
`[""]`, and a trailing separator yields a trailing empty piece. -/
def splitChAux (sep : Char) : List Char → List (List Char)
  | [] => [[]]
  | c :: cs =>
    match splitChAux sep cs with
    | [] => [[]]
    | h :: t => if c = sep then [] :: h :: t else (c :: h) :: t

/-- JS `s.split(sep)` for a single-character separator. -/
def jsSplit (sep : Char) (s : String) : List String :=
  (splitChAux sep s.data).map String.mk

/-- JS `s.trim()`: strip whitespace from both ends. -/
def trimStr (s : String) : String :=
  String.mk (((s.data.dropWhile wsChar).reverse.dropWhile wsChar).reverse)

/-- Lowercase a string character-wise (ASCII, as JS `toLowerCase` on the
identifiers and values appearing here). -/
def lowerStr (s : String) : String :=
  String.mk (s.data.map Char.toLower)

/-- Uppercase a string character-wise (JS `toUpperCase`). -/
def upperStr (s : String) : String :=
  String.mk (s.data.map Char.toUpper)

/-- `Array.prototype.join(sep)` / template-literal interpolation of arrays. -/
def sIntercalate (sep : String) : List String → String
  | [] => ""
  | [s] => s
  | s :: rest => s ++ sep ++ sIntercalate sep rest

/-- Boolean substring test on strings (via character lists). -/
def containsSub (needle hay : String) : Bool :=
  hay.data.tails.any (fun t => needle.data.isPrefixOf t)

/-- Boolean suffix test on strings. -/
def sEndsWith (hay suffixStr : String) : Bool :=
  suffixStr.data.isSuffixOf hay.data

/-- The decimal digit character for `n` (`n < 10`; larger arguments are
clamped, they never occur). -/
def digitCh : Nat → Char
  | 0 => '0' | 1 => '1' | 2 => '2' | 3 => '3' | 4 => '4'
  | 5 => '5' | 6 => '6' | 7 => '7' | 8 => '8' | _ => '9'

/-- Fuelled decimal rendering of a natural number (fuel `n+1` always
suffices, see `natDigits`). -/
def natDigitsF : Nat → Nat → List Char
  | 0, _ => []
  | fuel + 1, n =>
    if n < 10 then [digitCh n]
    else natDigitsF fuel (n / 10) ++ [digitCh (n % 10)]

/-- Decimal digit list of a natural number, most significant first. -/
def natDigits (n : Nat) : List Char := natDigitsF (n + 1) n

/-- Decimal rendering of a natural number. -/
def natStr (n : Nat) : String := String.mk (natDigits n)

/-- Decimal rendering of an integer (JS number → string for integers). -/
def intStr (n : Int) : String :=
  if n < 0 then "-" ++ natStr n.natAbs else natStr n.toNat

/-- A JS number that may be NaN (produced by `parseInt`). -/
inductive JNum where
  | int : Int → JNum
  | nan : JNum
deriving DecidableEq

/-- JS `<` against an integer constant: NaN compares false. -/
def JNum.ltI : JNum → Int → Bool
  | .int a, b => a < b
  | .nan, _ => false

/-- JS `>` against an integer constant: NaN compares false. -/
def JNum.gtI : JNum → Int → Bool
  | .int a, b => a > b
  | .nan, _ => false

/-- JS truthiness of a number: 0 and NaN are falsy. -/
def JNum.truthy : JNum → Bool
  | .int a => a ≠ 0
  | .nan => false

/-- JS string rendering of a number. -/
def JNum.render : JNum → String
  | .int a => intStr a
  | .nan => "NaN"

/-- Value of a leading decimal-digit run, `none` when there is none. -/
def digitsPrefixVal (l : List Char) : Option Nat :=
  let ds := l.takeWhile Char.isDigit
  if ds.isEmpty then none
  else some (ds.foldl (fun a c => 10 * a + (c.toNat - 48)) 0)

/-- JS `parseInt(s, 10)`: skip leading whitespace, optional sign, leading
digit run; NaN when no digits follow. -/
def jsParseInt (s : String) : JNum :=
  match s.data.dropWhile wsChar with
  | '-' :: rest =>
    match digitsPrefixVal rest with
    | some n => .int (-(n : Int))
    | none => .nan
  | '+' :: rest =>
    match digitsPrefixVal rest with
    | some n => .int (n : Int)
    | none => .nan
  | l =>
    match digitsPrefixVal l with
    | some n => .int (n : Int)
    | none => .nan

/-! ## Request-level value and error types -/

/-- A raw request value: a string or an array of strings (what Express-style
query parsing delivers, and what filter values hold at runtime). -/
inductive StrOrList where
  | s : String → StrOrList
  | l : List String → StrOrList
deriving DecidableEq

/-- The string or array behind a `string | string[]` union, as a list. -/
def solList : StrOrList → List String
  | .s s => [s]
  | .l l => l

/-- JS template-literal interpolation of a possibly-missing value
(`undefined` renders as the string "undefined", arrays join with ","). -/
def fvInterp : Option StrOrList → String
  | none => "undefined"
  | some (.s s) => s
  | some (.l xs) => sIntercalate "," xs

/-- Exceptions thrown by the engine: `BadRequestException`,
`ForbiddenException`, and plain `Error` (thrown by the controllers). -/
inductive Err where
  | badRequest : String → Err
  | forbidden : String → Err
  | jsError : String → Err
deriving DecidableEq

/-- The kind tag of an error, without its message. -/
inductive EKind where
  | badRequest | forbidden | jsError
deriving DecidableEq

/-- Kind of an error value. -/
def Err.kind : Err → EKind
  | .badRequest _ => .badRequest
  | .forbidden _ => .forbidden
  | .jsError _ => .jsError

/-- Kind of the error of a computation, `none` on success. -/
def resKind {α : Type} : Except Err α → Option EKind
  | .ok _ => none
  | .error e => some e.kind

/-- Whether a computation succeeded. -/
def exOk {α : Type} : Except Err α → Bool
  | .ok _ => true
  | .error _ => false

/-- Sequential effectful iteration (`Array.prototype.forEach` with thrown
exceptions): stops at the first error. -/
def exFor {α : Type} (l : List α) (f : α → Except Err Unit) : Except Err Unit :=
  match l with
  | [] => .ok ()
  | a :: rest => do
    f a
    exFor rest f

/-! ## Core data model (interfaces/query.interface.ts, crud.interface.ts) -/

/-- The eleven filter operators of the `QueryFilter` interface. -/
inductive Operator where
  | eq | ne | gt | gte | lt | lte | like | in' | not_in | is_null | is_not_null
deriving DecidableEq

/-- `QueryFilter`: column, operator, optional value. -/
structure QueryFilter where
  column : String
  operator : Operator
  value : Option StrOrList
deriving DecidableEq

/-- `QueryJoin`: the join request structure; `joinType` is optional and
defaults to LEFT at use sites. -/
structure QueryJoin where
  localColumn : String
  joinTable : String
  joinColumn : String
  selectColumns : List String
  joinType : Option String
deriving DecidableEq

/-- `QueryParams`: a parsed read request. -/
structure QueryParams where
  table : String
  columns : StrOrList
  filters : List QueryFilter
  joins : List QueryJoin
  limit : Option JNum
  offset : Option JNum
  orderBy : Option String
  orderDirection : Option String
deriving DecidableEq

/-- Mutation operations. -/
inductive Op where
  | CREATE | UPDATE | DELETE
deriving DecidableEq, BEq

/-- Rendering of an operation name (for error messages). -/
def opStr : Op → String
  | .CREATE => "CREATE"
  | .UPDATE => "UPDATE"
  | .DELETE => "DELETE"

/-- `WritePermission` as loaded by `WritePermissionsService` (the loader
fills `maxRecordsPerOperation || 100`, so the field is always set). -/
structure WritePermission where
  apiKey : String
  allowedTables : List String
  allowedOperations : List Op
  maxRecordsPerOperation : Int
  rateLimitOverride : Option (Int × Int)
deriving DecidableEq

/-- `UpdateParams` for the CRUD service. -/
structure UpdateParams where
  table : String
  data : List (String × StrOrList)
  filters : List QueryFilter
  returnColumns : Option (List String)
deriving DecidableEq

/-- `DeleteParams` for the CRUD service. -/
structure DeleteParams where
  table : String
  filters : List QueryFilter
  returnColumns : Option (List String)
deriving DecidableEq

/-- `CreateParams` for the CRUD service. -/
structure CreateParams where
  table : String
  data : List (String × StrOrList)
  returnColumns : Option (List String)
deriving DecidableEq

/-! ## ValidationService (security/validation.service.ts) -/

/-- First character class of the identifier regex `[a-zA-Z_]`. -/
def isIdentStart (c : Char) : Bool := c.isAlpha || c = '_'

/-- Later character class of the identifier regex `[a-zA-Z0-9_]`. -/
def isIdentRest (c : Char) : Bool := c.isAlphanum || c = '_'

/-- The anchored identifier regex test of the validator. -/
def matchesIdent (s : String) : Bool :=
  match s.data with
  | [] => false
  | c :: cs => isIdentStart c && cs.all isIdentRest

/-- One element of a (simplified) regular expression: a literal, `\s*`,
`\s+`, a literal alternation, or a single `\s`. -/
inductive Pat where
  | lit : List Char → Pat
  | ws0 : Pat
  | ws1 : Pat
  | alt : List (List Char) → Pat
  | wsc : Pat

/-- Fuelled matcher: does the pattern sequence match a prefix of `s`?
`\s*` is nondeterministic (zero-width or consume one whitespace), matching
full regex semantics.  Fuel `ps.length + s.length + 1` always suffices
(every call decreases `ps.length + s.length`). -/
def matchPatsF : Nat → List Pat → List Char → Bool
  | 0, _, _ => false
  | _ + 1, [], _ => true
  | fuel + 1, .lit l :: ps, s =>
    l.isPrefixOf s && matchPatsF fuel ps (s.drop l.length)
  | fuel + 1, .ws0 :: ps, s =>
    matchPatsF fuel ps s ||
      (match s with
       | c :: rest => wsChar c && matchPatsF fuel (.ws0 :: ps) rest
       | [] => false)
  | fuel + 1, .ws1 :: ps, s =>
    (match s with
     | c :: rest => wsChar c && matchPatsF fuel (.ws0 :: ps) rest
     | [] => false)
  | fuel + 1, .alt ls :: ps, s =>
    ls.any (fun l => l.isPrefixOf s && matchPatsF fuel ps (s.drop l.length))
  | fuel + 1, .wsc :: ps, s =>
    (match s with
     | c :: rest => wsChar c && matchPatsF fuel ps rest
     | [] => false)

/-- Prefix match of a pattern sequence with sufficient fuel. -/
def matchPats (ps : List Pat) (s : List Char) : Bool :=
  matchPatsF (ps.length + s.length + 1) ps s

/-- Case-insensitive unanchored regex test: the pattern matches at some
position of the lowercased input (the `/i` patterns below are written in
lowercase). -/
def testPat (ps : List Pat) (s : String) : Bool :=
  (s.data.map Char.toLower).tails.any (fun t => matchPats ps t)

/-- The fixed `maliciousPatterns` list of `ValidationService` (twelve
regexes, all with the `/i` flag). -/
def maliciousPatterns : List (List Pat) :=
  [ [.lit [';'], .ws0,
     .alt [['d','r','o','p'], ['d','e','l','e','t','e'], ['i','n','s','e','r','t'],
           ['u','p','d','a','t','e'], ['c','r','e','a','t','e'], ['a','l','t','e','r']],
     .wsc],
    [.lit ['u','n','i','o','n'], .ws1, .lit ['s','e','l','e','c','t']],
    [.lit ['s','c','r','i','p','t'], .ws0, .lit ['>']],
    [.lit ['<'], .ws0, .lit ['s','c','r','i','p','t']],
    [.lit ['j','a','v','a','s','c','r','i','p','t'], .ws0, .lit [':']],
    [.lit ['d','a','t','a'], .ws0, .lit [':'], .ws0,
     .lit ['t','e','x','t','/','h','t','m','l']],
    [.lit ['e','v','a','l'], .ws0, .lit ['(']],
    [.lit ['e','x','p','r','e','s','s','i','o','n'], .ws0, .lit ['(']],
    [.lit ['e','x','e','c'], .ws0, .lit ['(']],
    [.alt [['x','p','_'], ['s','p','_']], .lit ['c','m','d','s','h','e','l','l']],
    [.lit ['w','a','i','t','f','o','r'], .ws1, .lit ['d','e','l','a','y']],
    [.lit ['c','o','n','v','e','r','t'], .ws0, .lit ['('], .ws0, .lit ['i','n','t']] ]

/-- Does any of the read-path malicious patterns match the input? -/
def anyMalicious (s : String) : Bool :=
  maliciousPatterns.any (fun p => testPat p s)

/-- `ValidationService.validateInput` (the `context` argument only feeds the
logger and is dropped): malicious-pattern scan, then length > 1000, then
embedded null byte. -/
def validateInput (input : String) : Except Err Unit :=
  if anyMalicious input then .error (.badRequest "Invalid input detected")
  else if input.length > 1000 then .error (.badRequest "Input too long")
  else if input.data.contains '\x00' then .error (.badRequest "Null bytes not allowed")
  else .ok ()

/-- `ValidationService.validateQueryParams`: scan every key and every
string-typed value. -/
def validateQueryParams (qp : List (String × StrOrList)) : Except Err Unit :=
  exFor qp (fun kv => do
    validateInput kv.1
    match kv.2 with
    | .s v => validateInput v
    | .l _ => .ok ())

/-- `ValidationService.validateTableName`: identifier regex, length ≤ 100,
reserved words. -/
def validateTableName (tableName : String) : Except Err Unit :=
  if !matchesIdent tableName then .error (.badRequest "Invalid table name format")
  else if tableName.length > 100 then .error (.badRequest "Table name too long")
  else if ["user", "password", "admin", "root", "config", "system"].contains
      (lowerStr tableName) then
    .error (.badRequest "Access to this table is restricted")
  else .ok ()

/-- `ValidationService.validateColumns`: each column is `*` or a valid
identifier of length ≤ 100. -/
def validateColumns (columns : StrOrList) : Except Err Unit :=
  exFor (solList columns) (fun column =>
    if column ≠ "*" && !matchesIdent column then
      .error (.badRequest ("Invalid column name format: " ++ column))
    else if column.length > 100 then
      .error (.badRequest "Column name too long")
    else .ok ())

/-- `ValidationService.validatePaginationParams`: limit in [1,1000], offset
≥ 0 (NaN passes both JS comparisons and is kept). -/
def validatePaginationParams (limit offset : Option JNum) :
    Except Err (Option JNum × Option JNum) := do
  match limit with
  | some l =>
    if l.ltI 1 || l.gtI 1000 then
      throw (.badRequest "Limit must be between 1 and 1000")
    else pure ()
  | none => pure ()
  match offset with
  | some o =>
    if o.ltI 0 then throw (.badRequest "Offset must be non-negative")
    else pure ()
  | none => pure ()
  pure (limit, offset)

/-- The elements an `in`/`not_in` value normalizes to: a comma-separated
string splits (with trimming), an array stays as is. -/
def normElems : StrOrList → List String
  | .s s => (jsSplit ',' s).map trimStr
  | .l l => l

/-- `ValidationService.validateFilterValue`: for `in`/`not_in` normalize and
cap at 100 elements; otherwise scan string values. -/
def validateFilterValue (value : StrOrList) (operator : Operator) :
    Except Err StrOrList :=
  if operator = .in' || operator = .not_in then
    match value with
    | .s s =>
      let arrayValue := (jsSplit ',' s).map trimStr
      if arrayValue.length > 100 then
        .error (.badRequest "Too many values in IN clause (max 100)")
      else .ok (.l arrayValue)
    | .l l =>
      if l.length > 100 then
        .error (.badRequest "Too many values in IN clause (max 100)")
      else .ok (.l l)
  else
    match value with
    | .s s => do
      validateInput s
      .ok value
    | .l _ => .ok value

/-! ## DynamicQueryService (dynamic-query.service.ts) — read path -/

/-- The service's `forbiddenColumns` set (exact names, membership is tested
on the lowercased column name). -/
def forbiddenColumns : List String := ["password", "secret", "token", "private_key"]

/-- JS truthiness of the optional main-table argument. -/
def tableTruthy : Option String → Bool
  | some t => t ≠ ""
  | none => false

/-- `x || d` for an optional string (undefined and "" fall back). -/
def orDefault (o : Option String) (d : String) : String :=
  match o with
  | some s => if s = "" then d else s
  | none => d

/-- `DynamicQueryService.validateQuery`: allow-listed table, allow-listed
join tables, forbidden-column check on join columns and on selected columns
(wildcard selection skips the column check). -/
def validateQuery (allowedTables : List String) (p : QueryParams) : Except Err Unit := do
  if !allowedTables.contains p.table then
    throw (.forbidden ("Table '" ++ p.table ++ "' is not accessible"))
  exFor p.joins (fun join => do
    if !allowedTables.contains join.joinTable then
      throw (.forbidden ("Join table '" ++ join.joinTable ++ "' is not accessible"))
    exFor (join.localColumn :: join.joinColumn :: join.selectColumns) (fun column =>
      if forbiddenColumns.contains (lowerStr column) then
        .error (.forbidden ("Column '" ++ column ++ "' is not accessible"))
      else .ok ()))
  let columnList := solList p.columns
  if columnList.contains "*" then pure ()
  else
    exFor columnList (fun column =>
      if forbiddenColumns.contains (lowerStr column) then
        .error (.forbidden ("Column '" ++ column ++ "' is not accessible"))
      else .ok ())

/-- `DynamicQueryService.getQualifiedColumnName`: a column listed in some
join's `selectColumns` is qualified to that join's table; otherwise, with
joins present and a (truthy) main table, to the main table; else plain. -/
def getQualifiedColumnName (column : String) (mainTable : Option String)
    (joins : List QueryJoin) : String :=
  match joins.find? (fun j => j.selectColumns.contains column) with
  | some j => "\"" ++ j.joinTable ++ "\".\"" ++ column ++ "\""
  | none =>
    if joins.length > 0 && tableTruthy mainTable then
      "\"" ++ mainTable.getD "" ++ "\".\"" ++ column ++ "\""
    else "\"" ++ column ++ "\""

/-- `DynamicQueryService.buildSelectColumns`. -/
def buildSelectColumns (columns : StrOrList) (joins : List QueryJoin)
    (table : String) : String :=
  let starSel :=
    match columns with
    | .s s => s == "*"
    | .l l => l.contains "*"
  let mainParts :=
    if starSel then
      if joins.length > 0 && table ≠ "" then ["\"" ++ table ++ "\".*"] else ["*"]
    else
      let columnList := solList columns
      if joins.length > 0 && table ≠ "" then
        columnList.map (fun col => "\"" ++ table ++ "\".\"" ++ col ++ "\"")
      else
        columnList.map (fun col => "\"" ++ col ++ "\"")
  let joinParts := joins.flatMap (fun join =>
    join.selectColumns.map (fun col =>
      "\"" ++ join.joinTable ++ "\".\"" ++ col ++ "\" AS \"" ++
        join.joinTable ++ "_" ++ col ++ "\""))
  sIntercalate ", " (mainParts ++ joinParts)

/-- `DynamicQueryService.buildJoinClauses` (join type defaults to LEFT). -/
def buildJoinClauses (joins : List QueryJoin) (mainTable : String) : String :=
  String.join (joins.map (fun join =>
    " " ++ orDefault join.joinType "LEFT" ++ " JOIN \"" ++ join.joinTable ++
      "\" ON \"" ++ mainTable ++ "\".\"" ++ join.localColumn ++ "\" = \"" ++
      join.joinTable ++ "\".\"" ++ join.joinColumn ++ "\""))

/-- One iteration of `buildWhereClause`'s switch: the optional condition the
filter contributes, the parameters it pushes, and the next parameter index. -/
def wherePiece (joins : List QueryJoin) (mainTable : Option String)
    (f : QueryFilter) (paramIndex : Nat) :
    Option String × List (Option StrOrList) × Nat :=
  let qualifiedColumn := getQualifiedColumnName f.column mainTable joins
  match f.operator with
  | .eq => (some (qualifiedColumn ++ " = $" ++ natStr paramIndex), [f.value], paramIndex + 1)
  | .ne => (some (qualifiedColumn ++ " != $" ++ natStr paramIndex), [f.value], paramIndex + 1)
  | .gt => (some (qualifiedColumn ++ " > $" ++ natStr paramIndex), [f.value], paramIndex + 1)
  | .gte => (some (qualifiedColumn ++ " >= $" ++ natStr paramIndex), [f.value], paramIndex + 1)
  | .lt => (some (qualifiedColumn ++ " < $" ++ natStr paramIndex), [f.value], paramIndex + 1)
  | .lte => (some (qualifiedColumn ++ " <= $" ++ natStr paramIndex), [f.value], paramIndex + 1)
  | .like =>
    (some (qualifiedColumn ++ " ILIKE $" ++ natStr paramIndex),
     [some (.s ("%" ++ fvInterp f.value ++ "%"))], paramIndex + 1)
  | .in' =>
    match f.value with
    | some (.l xs) =>
      if xs.length > 0 then
        (some (qualifiedColumn ++ " IN (" ++
           sIntercalate ", " ((List.range' paramIndex xs.length).map
             (fun j => "$" ++ natStr j)) ++ ")"),
         xs.map (fun x => some (.s x)), paramIndex + xs.length)
      else (none, [], paramIndex)
    | _ => (none, [], paramIndex)
  | .not_in =>
    match f.value with
    | some (.l xs) =>
      if xs.length > 0 then
        (some (qualifiedColumn ++ " NOT IN (" ++
           sIntercalate ", " ((List.range' paramIndex xs.length).map
             (fun j => "$" ++ natStr j)) ++ ")"),
         xs.map (fun x => some (.s x)), paramIndex + xs.length)
      else (none, [], paramIndex)
    | _ => (none, [], paramIndex)
  | .is_null => (some (qualifiedColumn ++ " IS NULL"), [], paramIndex)
  | .is_not_null => (some (qualifiedColumn ++ " IS NOT NULL"), [], paramIndex)

/-- The condition/parameter accumulation of `buildWhereClause` over the
filter list, threading the positional parameter index. -/
def buildWhereAux (joins : List QueryJoin) (mainTable : Option String) :
    List QueryFilter → Nat → List String × List (Option StrOrList)
  | [], _ => ([], [])
  | f :: fs, i =>
    let p := wherePiece joins mainTable f i
    let rest := buildWhereAux joins mainTable fs p.2.2
    (match p.1 with
     | some c => c :: rest.1
     | none => rest.1,
     p.2.1 ++ rest.2)

/-- `DynamicQueryService.buildWhereClause`: conditions joined with AND,
positional parameters starting at `$1`. -/
def buildWhereClause (filters : List QueryFilter) (joins : List QueryJoin)
    (mainTable : Option String) : String × List (Option StrOrList) :=
  let r := buildWhereAux joins mainTable filters 1
  (sIntercalate " AND " r.1, r.2)

/-- The pure compilation part of `DynamicQueryService.executeQuery`: the
data statement, the companion COUNT statement, and the bound parameters. -/
structure CompiledQuery where
  baseQuery : String
  countQuery : String
  params : List (Option StrOrList)
deriving DecidableEq

/-- `DynamicQueryService.executeQuery`, up to (and excluding) database
execution: validation and SQL compilation.  LIMIT/OFFSET append only when
the value is truthy (so 0 and NaN are dropped), and only the data query
gets ORDER BY / LIMIT / OFFSET. -/
def executeQueryCompile (allowedTables : List String) (p : QueryParams) :
    Except Err CompiledQuery := do
  validateQuery allowedTables p
  let selectColumns := buildSelectColumns p.columns p.joins p.table
  let base0 := "SELECT " ++ selectColumns ++ " FROM \"" ++ p.table ++ "\""
  let count0 := "SELECT COUNT(*) as count FROM \"" ++ p.table ++ "\""
  let joinClauses := if p.joins.length > 0 then buildJoinClauses p.joins p.table else ""
  let base1 := base0 ++ joinClauses
  let count1 := count0 ++ joinClauses
  let wc := if p.filters.length > 0 then buildWhereClause p.filters p.joins (some p.table)
            else ("", [])
  let base2 := if wc.1 ≠ "" then base1 ++ " WHERE " ++ wc.1 else base1
  let count2 := if wc.1 ≠ "" then count1 ++ " WHERE " ++ wc.1 else count1
  let base3 :=
    match p.orderBy with
    | some ob =>
      if ob ≠ "" then
        base2 ++ " ORDER BY " ++ getQualifiedColumnName ob (some p.table) p.joins ++
          " " ++ orDefault p.orderDirection "ASC"
      else base2
    | none => base2
  let base4 :=
    match p.limit with
    | some n => if n.truthy then base3 ++ " LIMIT " ++ n.render else base3
    | none => base3
  let base5 :=
    match p.offset with
    | some n => if n.truthy then base4 ++ " OFFSET " ++ n.render else base4
    | none => base4
  pure ⟨base5, count2, wc.2⟩

/-! ## DynamicQueryService — CRUD helpers and mutations -/

/-- `DynamicQueryService.validateTable` (allow-list membership). -/
def validateTable (allowedTables : List String) (table : String) : Except Err Unit :=
  if !allowedTables.contains table then
    .error (.forbidden ("Table '" ++ table ++ "' is not accessible"))
  else .ok ()

/-- `DynamicQueryService.validateColumnName` (anchored identifier regex). -/
def validateColumnName (columnName : String) : Except Err Unit :=
  if !matchesIdent columnName then
    .error (.badRequest ("Invalid column name: " ++ columnName))
  else .ok ()

/-- The `sqlInjectionPatterns` of `DynamicQueryService.validateColumnValue`
(this mutation-path list does include the comment markers). -/
def sqlInjectionPatterns : List (List Pat) :=
  [ [.lit [';'], .ws0,
     .alt [['d','r','o','p'], ['d','e','l','e','t','e'], ['i','n','s','e','r','t'],
           ['u','p','d','a','t','e'], ['c','r','e','a','t','e'], ['a','l','t','e','r']],
     .wsc],
    [.lit ['u','n','i','o','n'], .ws1, .lit ['s','e','l','e','c','t']],
    [.lit ['-','-']],
    [.lit ['/','*']],
    [.lit ['*','/']] ]

/-- `DynamicQueryService.validateColumnValue`: scan string values against
the mutation-path injection patterns. -/
def validateColumnValue (value : StrOrList) : Except Err Unit :=
  match value with
  | .s s =>
    if sqlInjectionPatterns.any (fun p => testPat p s) then
      .error (.badRequest "Invalid data: potential SQL injection detected")
    else .ok ()
  | .l _ => .ok ()

/-- `DynamicQueryService.validateDataForInsert`: non-empty payload,
forbidden-column pass, then name/value pass. -/
def validateDataForInsert (data : List (String × StrOrList)) : Except Err Unit := do
  if data.isEmpty then throw (.badRequest "Insert data cannot be empty")
  exFor data (fun kv =>
    if forbiddenColumns.contains (lowerStr kv.1) then
      .error (.forbidden ("Column '" ++ kv.1 ++ "' is not accessible for modification"))
    else .ok ())
  exFor data (fun kv => do
    validateColumnName kv.1
    validateColumnValue kv.2)

/-- `DynamicQueryService.validateDataForUpdate` (same checks as insert, with
the update wording on the empty payload). -/
def validateDataForUpdate (data : List (String × StrOrList)) : Except Err Unit := do
  if data.isEmpty then throw (.badRequest "Update data cannot be empty")
  exFor data (fun kv =>
    if forbiddenColumns.contains (lowerStr kv.1) then
      .error (.forbidden ("Column '" ++ kv.1 ++ "' is not accessible for modification"))
    else .ok ())
  exFor data (fun kv => do
    validateColumnName kv.1
    validateColumnValue kv.2)

/-- `DynamicQueryService.validateUpdateFilters`: an empty list passes (the
controllers enforce non-emptiness); otherwise per-filter name and value
checks. -/
def validateUpdateFilters (filters : List QueryFilter) : Except Err Unit :=
  if filters.isEmpty then .ok ()
  else
    exFor filters (fun filter => do
      validateColumnName filter.column
      match filter.value with
      | some v => validateColumnValue v
      | none => .ok ())

/-- The element list an `in`/`not_in` CRUD filter value expands to
(`Array.isArray(v) ? v : v.split(',')`; a missing value would be a runtime
TypeError in the source and is never produced by the parsers — modelled as
the empty list). -/
def crudElems : Option StrOrList → List String
  | some (.l xs) => xs
  | some (.s s) => jsSplit ',' s
  | none => []

/-- One iteration of `buildCrudWhereClause`'s switch. -/
def crudPiece (f : QueryFilter) (paramIndex : Nat) :
    Option String × List (Option StrOrList) × Nat :=
  let column := "\"" ++ f.column ++ "\""
  match f.operator with
  | .eq => (some (column ++ " = $" ++ natStr paramIndex), [f.value], paramIndex + 1)
  | .ne => (some (column ++ " != $" ++ natStr paramIndex), [f.value], paramIndex + 1)
  | .gt => (some (column ++ " > $" ++ natStr paramIndex), [f.value], paramIndex + 1)
  | .gte => (some (column ++ " >= $" ++ natStr paramIndex), [f.value], paramIndex + 1)
  | .lt => (some (column ++ " < $" ++ natStr paramIndex), [f.value], paramIndex + 1)
  | .lte => (some (column ++ " <= $" ++ natStr paramIndex), [f.value], paramIndex + 1)
  | .like =>
    (some (column ++ " ILIKE $" ++ natStr paramIndex),
     [some (.s ("%" ++ fvInterp f.value ++ "%"))], paramIndex + 1)
  | .in' =>
    let inValues := crudElems f.value
    (some (column ++ " IN (" ++
       sIntercalate ", " ((List.range' paramIndex inValues.length).map
         (fun j => "$" ++ natStr j)) ++ ")"),
     inValues.map (fun x => some (.s x)), paramIndex + inValues.length)
  | .not_in =>
    let notInValues := crudElems f.value
    (some (column ++ " NOT IN (" ++
       sIntercalate ", " ((List.range' paramIndex notInValues.length).map
         (fun j => "$" ++ natStr j)) ++ ")"),
     notInValues.map (fun x => some (.s x)), paramIndex + notInValues.length)
  | .is_null => (some (column ++ " IS NULL"), [], paramIndex)
  | .is_not_null => (some (column ++ " IS NOT NULL"), [], paramIndex)

/-- Accumulation of `buildCrudWhereClause` over the filter list. -/
def buildCrudAux : List QueryFilter → Nat → List String × List (Option StrOrList)
  | [], _ => ([], [])
  | f :: fs, i =>
    let p := crudPiece f i
    let rest := buildCrudAux fs p.2.2
    (match p.1 with
     | some c => c :: rest.1
     | none => rest.1,
     p.2.1 ++ rest.2)

/-- `DynamicQueryService.buildCrudWhereClause` (parameters continue after
`startIndex`, used to place UPDATE's SET parameters first). -/
def buildCrudWhereClause (filters : List QueryFilter) (startIndex : Nat) :
    String × List (Option StrOrList) :=
  if filters.isEmpty then ("", [])
  else
    let r := buildCrudAux filters (startIndex + 1)
    (if r.1.length > 0 then "WHERE " ++ sIntercalate " AND " r.1 else "", r.2)

/-- The RETURNING clause (`returnColumns ? … : 'RETURNING *'`). -/
def returningClause (returnColumns : Option (List String)) : String :=
  match returnColumns with
  | some cols => "RETURNING " ++ sIntercalate ", " (cols.map (fun col => "\"" ++ col ++ "\""))
  | none => "RETURNING *"

/-- A compiled mutation statement with its bound parameters. -/
structure CompiledMutation where
  sql : String
  params : List (Option StrOrList)
deriving DecidableEq

/-- `DynamicQueryService.createRecord`, up to (and excluding) transaction
execution: validation and INSERT compilation. -/
def createRecordService (allowedTables : List String) (params : CreateParams) :
    Except Err CompiledMutation := do
  validateTable allowedTables params.table
  validateDataForInsert params.data
  let columns := params.data.map Prod.fst
  let values := params.data.map (fun kv => some kv.2)
  let placeholdersStr :=
    sIntercalate ", " ((List.range' 1 values.length).map (fun j => "$" ++ natStr j))
  let insertQuery :=
    "\n        INSERT INTO \"" ++ params.table ++ "\" (" ++
      sIntercalate ", " (columns.map (fun col => "\"" ++ col ++ "\"")) ++
      ")\n        VALUES (" ++ placeholdersStr ++ ")\n        " ++
      returningClause params.returnColumns ++ "\n      "
  pure ⟨insertQuery, values⟩

/-- `DynamicQueryService.updateRecord`, up to (and excluding) transaction
execution: validation and UPDATE compilation.  Note there is no
empty-filter check here — that lives in the controller. -/
def updateRecordService (allowedTables : List String) (params : UpdateParams) :
    Except Err CompiledMutation := do
  validateTable allowedTables params.table
  validateDataForUpdate params.data
  validateUpdateFilters params.filters
  let setClause :=
    sIntercalate ", " (params.data.enum.map
      (fun p => "\"" ++ p.2.1 ++ "\" = $" ++ natStr (p.1 + 1)))
  let values := params.data.map (fun kv => some kv.2)
  let wc := buildCrudWhereClause params.filters values.length
  let updateQuery :=
    "\n        UPDATE \"" ++ params.table ++ "\"\n        SET " ++ setClause ++
      "\n        " ++ wc.1 ++ "\n        " ++
      returningClause params.returnColumns ++ "\n      "
  pure ⟨updateQuery, values ++ wc.2⟩

/-- `DynamicQueryService.deleteRecord`, up to (and excluding) transaction
execution: validation (including the service-level empty-filter guard) and
DELETE compilation. -/
def deleteRecordService (allowedTables : List String) (params : DeleteParams) :
    Except Err CompiledMutation := do
  validateTable allowedTables params.table
  validateUpdateFilters params.filters
  if params.filters.length = 0 then
    throw (.badRequest "DELETE operations require at least one filter to prevent accidental data loss")
  let wc := buildCrudWhereClause params.filters 0
  let deleteQuery :=
    "\n        DELETE FROM \"" ++ params.table ++ "\"\n        " ++ wc.1 ++
      "\n        " ++ returningClause params.returnColumns ++ "\n      "
  pure ⟨deleteQuery, wc.2⟩

/-! ## WritePermissionsService (security/write-permissions.service.ts) -/

/-- `WritePermissionsService.hasWritePermission`. -/
def hasWritePermission (perms : List (String × WritePermission)) (apiKey : String) : Bool :=
  (List.lookup apiKey perms).isSome

/-- `WritePermissionsService.validateWriteOperation`: no permission record ⇒
Forbidden; then operation, table, and record-count ceiling checks (the
ceiling check is skipped when the stored ceiling is falsy, i.e. 0). -/
def validateWriteOperation (perms : List (String × WritePermission))
    (apiKey : String) (operation : Op) (table : String) (recordCount : Int) :
    Except Err Unit :=
  match List.lookup apiKey perms with
  | none => .error (.forbidden "Write operations require special API key permissions")
  | some permission =>
    if !permission.allowedOperations.contains operation then
      .error (.forbidden (opStr operation ++ " operation not permitted for this API key"))
    else if !permission.allowedTables.contains "*" &&
        !permission.allowedTables.contains table then
      .error (.forbidden (opStr operation ++ " operation not permitted on table '" ++ table ++ "'"))
    else if permission.maxRecordsPerOperation ≠ 0 &&
        recordCount > permission.maxRecordsPerOperation then
      .error (.forbidden ("Operation exceeds maximum records limit (" ++
        intStr permission.maxRecordsPerOperation ++ ")"))
    else .ok ()

/-! ## Controllers: filter/join parsing and request pipelines -/

/-- The `filterKeys` operator-token list of both controllers. -/
def filterKeys : List String :=
  ["eq", "ne", "gt", "gte", "lt", "lte", "like", "in", "not_in", "is_null", "is_not_null"]

/-- Resolution of an operator token to the `Operator` type; defined exactly
on the members of `filterKeys` (the controllers' `filterKeys.includes`
check followed by the cast). -/
def strToOp (s : String) : Option Operator :=
  if s = "eq" then some .eq
  else if s = "ne" then some .ne
  else if s = "gt" then some .gt
  else if s = "gte" then some .gte
  else if s = "lt" then some .lt
  else if s = "lte" then some .lte
  else if s = "like" then some .like
  else if s = "in" then some .in'
  else if s = "not_in" then some .not_in
  else if s = "is_null" then some .is_null
  else if s = "is_not_null" then some .is_not_null
  else none

/-- Reserved (skipped) keys of `DynamicQueryController.parseAndValidateFilters`. -/
def skipRead : List String := ["limit", "offset", "orderBy", "orderDirection", "join"]

/-- Reserved (skipped) keys of `CrudController.parseAndValidateFilters`. -/
def skipCrud : List String := ["limit", "offset", "orderBy", "orderDirection", "apiKey"]

/-- The entry loop of `parseAndValidateFilters`: split each key on `_`, take
the last segment as the operator token, the joined prefix as the column. -/
def parseFiltersAux (skip : List String) :
    List (String × StrOrList) → Except Err (List QueryFilter)
  | [] => .ok []
  | (key, value) :: rest =>
    if skip.contains key then parseFiltersAux skip rest
    else
      let parts := jsSplit '_' key
      if parts.length ≥ 2 then
        let operator := (parts.getLast?).getD ""
        let column := sIntercalate "_" parts.dropLast
        match strToOp operator with
        | some op => do
          validateColumns (.s column)
          let filter ←
            if op = .is_null || op = .is_not_null then
              pure (⟨column, op, none⟩ : QueryFilter)
            else do
              let v ← validateFilterValue value op
              pure (⟨column, op, some v⟩ : QueryFilter)
          let fs ← parseFiltersAux skip rest
          pure (filter :: fs)
        | none => parseFiltersAux skip rest
      else parseFiltersAux skip rest

/-- `parseAndValidateFilters` (shared shape of both controllers, the skipped
keys differ): parse all entries, then cap at 10 filters. -/
def parseAndValidateFilters (skip : List String) (qp : List (String × StrOrList)) :
    Except Err (List QueryFilter) := do
  let filters ← parseFiltersAux skip qp
  if filters.length > 10 then
    throw (.jsError "Too many filters (maximum 10 allowed)")
  else pure filters

/-- Parsing of one colon-delimited join parameter
(`localColumn:joinTable:joinColumn:selectColumns[:joinType]`). -/
def parseJoinOne (jp : String) : Except Err QueryJoin := do
  let parts := jsSplit ':' jp
  if parts.length < 4 then
    throw (.jsError "Invalid join format. Expected: localColumn:joinTable:joinColumn:selectColumns[:joinType]")
  let localColumn := (parts[0]?).getD ""
  let joinTable := (parts[1]?).getD ""
  let joinColumn := (parts[2]?).getD ""
  let selectColumnsStr := (parts[3]?).getD ""
  let selectColumns := (jsSplit ',' selectColumnsStr).map trimStr
  validateColumns (.s localColumn)
  validateTableName joinTable
  validateColumns (.s joinColumn)
  exFor selectColumns (fun col => validateColumns (.s col))
  pure ⟨localColumn, joinTable, joinColumn, selectColumns,
        some (orDefault parts[4]? "LEFT")⟩

/-- `DynamicQueryController.parseAndValidateJoins`: the `join` parameter may
be a single string or repeated; at most 5 joins. -/
def parseAndValidateJoins (qp : List (String × StrOrList)) :
    Except Err (List QueryJoin) := do
  let joinParams : List String :=
    match List.lookup "join" qp with
    | some (.s s) => if s ≠ "" then [s] else []
    | some (.l l) => l
    | none => []
  let joins ← joinParams.mapM parseJoinOne
  if joins.length > 5 then
    throw (.jsError "Too many joins (maximum 5 allowed)")
  else pure joins

/-- `DynamicQueryController.queryData`, up to (and excluding) database
execution: full read-request validation, parsing and SQL compilation.
Note the pipeline never consults the write-permission table. -/
def queryDataPipeline (allowedTables : List String) (table columns : String)
    (qp : List (String × StrOrList)) : Except Err CompiledQuery := do
  validateTableName table
  validateQueryParams qp
  let columnsList : StrOrList :=
    if columns = "*" then .s "*" else .l ((jsSplit ',' columns).map trimStr)
  validateColumns columnsList
  let rawLimit : Option JNum :=
    match List.lookup "limit" qp with
    | some (.s s) => if s ≠ "" then some (jsParseInt s) else none
    | some (.l l) => some (jsParseInt (sIntercalate "," l))
    | none => none
  let rawOffset : Option JNum :=
    match List.lookup "offset" qp with
    | some (.s s) => if s ≠ "" then some (jsParseInt s) else none
    | some (.l l) => some (jsParseInt (sIntercalate "," l))
    | none => none
  let validated ← validatePaginationParams rawLimit rawOffset
  let filters ← parseAndValidateFilters skipRead qp
  let joins ← parseAndValidateJoins qp
  let orderBy : Option String ←
    match List.lookup "orderBy" qp with
    | some (.s s) =>
      if s ≠ "" then do
        validateColumns (.s s)
        pure (some s)
      else pure none
    | some (.l l) => do
      validateColumns (.l l)
      pure (some (sIntercalate "," l))
    | none => pure none
  let orderDirection :=
    match List.lookup "orderDirection" qp with
    | some (.s s) => if upperStr s = "DESC" then "DESC" else "ASC"
    | _ => "ASC"
  executeQueryCompile allowedTables
    ⟨table, columnsList, filters, joins, validated.1, validated.2, orderBy,
     some orderDirection⟩

/-- `CrudController.createRecord`, up to (and excluding) execution: table
name check, write-permission check with record estimate 1, body check,
service call. -/
def createRecordPipeline (perms : List (String × WritePermission))
    (allowedTables : List String) (apiKey table : String)
    (bodyData : Option (List (String × StrOrList)))
    (returnColumns : Option (List String)) : Except Err CompiledMutation := do
  validateTableName table
  validateWriteOperation perms apiKey .CREATE table 1
  match bodyData with
  | none => throw (.jsError "Request body must contain \"data\" field")
  | some data => createRecordService allowedTables ⟨table, data, returnColumns⟩

/-- `CrudController.updateRecord`, up to (and excluding) execution: table
name check, filter parsing, empty-filter guard, write-permission check with
the fixed conservative estimate 100, body check, service call. -/
def updateRecordPipeline (perms : List (String × WritePermission))
    (allowedTables : List String) (apiKey table : String)
    (bodyData : Option (List (String × StrOrList)))
    (returnColumns : Option (List String)) (qp : List (String × StrOrList)) :
    Except Err CompiledMutation := do
  validateTableName table
  let filters ← parseAndValidateFilters skipCrud qp
  if filters.length = 0 then
    throw (.jsError "UPDATE operations require at least one filter to prevent accidental mass updates")
  validateWriteOperation perms apiKey .UPDATE table 100
  match bodyData with
  | none => throw (.jsError "Request body must contain \"data\" field")
  | some data => updateRecordService allowedTables ⟨table, data, filters, returnColumns⟩

/-- `CrudController.deleteRecord`, up to (and excluding) execution: table
name check, filter parsing, empty-filter guard, write-permission check with
the fixed conservative estimate 100, service call. -/
def deleteRecordPipeline (perms : List (String × WritePermission))
    (allowedTables : List String) (apiKey table : String)
    (returnColumns : Option (List String)) (qp : List (String × StrOrList)) :
    Except Err CompiledMutation := do
  validateTableName table
  let filters ← parseAndValidateFilters skipCrud qp
  if filters.length = 0 then
    throw (.jsError "DELETE operations require at least one filter to prevent accidental mass deletions")
  validateWriteOperation perms apiKey .DELETE table 100
  deleteRecordService allowedTables ⟨table, filters, returnColumns⟩

/-! ## Placeholder extraction from compiled SQL text

A small deterministic scanner collects the `$n` placeholder tokens of a
statement in order of occurrence; the lemmas below let us compute the token
list of the clause a `buildWhereClause` call produces. -/

/-- No `$` occurs in the character list. -/
def NoDollar (l : List Char) : Prop := '$' ∉ l

/-- Every character of the list is a decimal digit. -/
def AllDigits (l : List Char) : Prop := ∀ c ∈ l, c.isDigit = true

/-- The list is empty or starts with a non-digit. -/
def HeadNotDigit : List Char → Prop
  | [] => True
  | c :: _ => c.isDigit = false

/-- Scanner state: outside a placeholder, right after a `$`, or inside a
placeholder's digit run (digits collected so far). -/
inductive PhSt where
  | idle
  | dollar
  | num : List Char → PhSt

/-- One scanner step; the second component is the emitted (completed)
placeholder digit run, if any. -/
def phStep : PhSt → Char → PhSt × List (List Char)
  | .idle, c => (if c = '$' then .dollar else .idle, [])
  | .dollar, c =>
    if c.isDigit then (.num [c], [])
    else if c = '$' then (.dollar, [])
    else (.idle, [])
  | .num acc, c =>
    if c.isDigit then (.num (acc ++ [c]), [])
    else if c = '$' then (.dollar, [acc])
    else (.idle, [acc])

/-- Run the scanner, flushing a pending digit run at the end of the input. -/
def phRun : PhSt → List Char → List (List Char)
  | st, [] => (match st with | .num acc => [acc] | _ => [])
  | st, c :: cs => (phStep st c).2 ++ phRun (phStep st c).1 cs

/-- The `$n` placeholder tokens of a string, in order of occurrence. -/
def placeholders (s : String) : List String := (phRun .idle s.data).map String.mk

theorem nodollar_nil : NoDollar [] := by simp [NoDollar]

theorem nodollar_append {a b : List Char} (ha : NoDollar a) (hb : NoDollar b) :
    NoDollar (a ++ b) := by
  simp [NoDollar, List.mem_append] at *
  exact ⟨ha, hb⟩

theorem phRun_idle_nodollar (l rest : List Char) (h : NoDollar l) :
    phRun .idle (l ++ rest) = phRun .idle rest := by
  induction l with
  | nil => rfl
  | cons c cs ih =>
    simp only [NoDollar, List.mem_cons, not_or] at h
    have hc : ¬(c = '$') := fun e => h.1 e.symm
    simp [phRun, phStep, hc]
    exact ih h.2

theorem phRun_num_digits (ds : List Char) (acc rest : List Char)
    (h : AllDigits ds) :
    phRun (.num acc) (ds ++ rest) = phRun (.num (acc ++ ds)) rest := by
  induction ds generalizing acc with
  | nil => simp
  | cons d ds ih =>
    have hd := h d (List.mem_cons_self ..)
    have hds : AllDigits ds := fun x hx => h x (List.mem_cons_of_mem _ hx)
    simp [phRun, phStep, hd]
    have := ih (acc ++ [d]) hds
    simpa [List.append_assoc] using this

theorem phRun_dollar_digits (ds rest : List Char) (hne : ds ≠ [])
    (h : AllDigits ds) : phRun .dollar (ds ++ rest) = phRun (.num ds) rest := by
  match ds, hne with
  | d :: ds, _ =>
    have hd := h d (List.mem_cons_self ..)
    have hds : AllDigits ds := fun x hx => h x (List.mem_cons_of_mem _ hx)
    simp [phRun, phStep, hd]
    simpa using phRun_num_digits ds [d] rest hds

theorem phRun_num_flush (acc rest : List Char) (h : HeadNotDigit rest) :
    phRun (.num acc) rest = acc :: phRun .idle rest := by
  match rest, h with
  | [], _ => rfl
  | c :: cs, h =>
    have hc : c.isDigit = false := h
    by_cases hd : c = '$'
    · subst hd
      simp [phRun, phStep, hc]
    · simp [phRun, phStep, hc, hd]

/-- `l` contributes exactly the placeholder tokens `T`, no matter what
non-digit-leading text follows it. -/
def EmitsTokens (l : List Char) (T : List (List Char)) : Prop :=
  ∀ rest, HeadNotDigit rest → phRun .idle (l ++ rest) = T ++ phRun .idle rest

theorem digitCh_isDigit (n : Nat) : (digitCh n).isDigit = true := by
  match n with
  | 0 | 1 | 2 | 3 | 4 | 5 | 6 | 7 | 8 => decide
  | n + 9 => rfl

theorem natDigitsF_digits : ∀ (fuel n : Nat), AllDigits (natDigitsF fuel n) := by
  intro fuel
  induction fuel with
  | zero => intro n c hc; simp [natDigitsF] at hc
  | succ f ih =>
    intro n c hc
    by_cases h : n < 10
    · simp [natDigitsF, h] at hc
      subst hc
      exact digitCh_isDigit n
    · simp [natDigitsF, h] at hc
      rcases hc with hc | hc
      · exact ih _ _ hc
      · subst hc
        exact digitCh_isDigit _

theorem natDigits_digits (n : Nat) : AllDigits (natDigits n) :=
  natDigitsF_digits _ _

theorem natDigits_ne_nil (n : Nat) : natDigits n ≠ [] := by
  unfold natDigits natDigitsF
  by_cases h : n < 10 <;> simp [h]

@[simp] theorem data_natStr (n : Nat) : (natStr n).data = natDigits n := rfl

theorem emits_single (pre : List Char) (n : Nat) (h : NoDollar pre) :
    EmitsTokens (pre ++ '$' :: natDigits n) [natDigits n] := by
  intro rest hrest
  rw [List.append_assoc, phRun_idle_nodollar pre _ h]
  show (phStep .idle '$').2 ++ phRun (phStep .idle '$').1 (natDigits n ++ rest) = _
  have hstep : phStep .idle '$' = (.dollar, []) := rfl
  rw [hstep]
  rw [List.nil_append, phRun_dollar_digits _ _ (natDigits_ne_nil n) (natDigits_digits n),
    phRun_num_flush _ _ hrest]
  rfl

theorem emits_nodollar (l : List Char) (h : NoDollar l) : EmitsTokens l [] := by
  intro rest hrest
  simp [phRun_idle_nodollar l rest h]

/-- Wrap an emitting segment in `$`-free text whose tail starts with a
non-digit. -/
theorem emits_wrap (pre m post : List Char) (T : List (List Char))
    (h : EmitsTokens m T) (hpre : NoDollar pre) (hpost : NoDollar post)
    (hph : HeadNotDigit post) : EmitsTokens (pre ++ (m ++ post)) T := by
  intro rest hrest
  have hpr : HeadNotDigit (post ++ rest) := by
    match post, hph with
    | [], _ => exact hrest
    | c :: cs, hph => exact hph
  calc phRun .idle ((pre ++ (m ++ post)) ++ rest)
      = phRun .idle (pre ++ (m ++ (post ++ rest))) := by
        simp [List.append_assoc]
    _ = phRun .idle (m ++ (post ++ rest)) := phRun_idle_nodollar _ _ hpre
    _ = T ++ phRun .idle (post ++ rest) := h _ hpr
    _ = T ++ phRun .idle rest := by rw [phRun_idle_nodollar _ _ hpost]

/-- Concatenate two emitting segments over a `$`-free separator that starts
with a non-digit. -/
theorem emits_append_sep (a b : List Char) (T1 T2 : List (List Char))
    (sep : List Char) (h1 : EmitsTokens a T1) (h2 : EmitsTokens b T2)
    (hsep : NoDollar sep) (hhead : HeadNotDigit sep) (hne : sep ≠ []) :
    EmitsTokens (a ++ sep ++ b) (T1 ++ T2) := by
  intro rest hrest
  have hsr : HeadNotDigit (sep ++ (b ++ rest)) := by
    match sep, hne, hhead with
    | c :: cs, _, hhead => exact hhead
  calc phRun .idle ((a ++ sep ++ b) ++ rest)
      = phRun .idle (a ++ (sep ++ (b ++ rest))) := by simp [List.append_assoc]
    _ = T1 ++ phRun .idle (sep ++ (b ++ rest)) := h1 _ hsr
    _ = T1 ++ phRun .idle (b ++ rest) := by rw [phRun_idle_nodollar _ _ hsep]
    _ = T1 ++ (T2 ++ phRun .idle rest) := by rw [h2 _ hrest]
    _ = (T1 ++ T2) ++ phRun .idle rest := by simp [List.append_assoc]

/-- Establish `NoDollar` from a decidable non-membership. -/
theorem nodollar_of (l : List Char) (h : '$' ∉ l) : NoDollar l := h

theorem emits_placeholder_list : ∀ (js : List Nat),
    EmitsTokens (sIntercalate ", " (js.map (fun j => "$" ++ natStr j))).data
      (js.map natDigits)
  | [] => by
    intro rest h
    rfl
  | [j] => by
    show EmitsTokens (sIntercalate ", " ["$" ++ natStr j]).data [natDigits j]
    have e : (sIntercalate ", " ["$" ++ natStr j]).data = [] ++ '$' :: natDigits j := rfl
    rw [e]
    exact emits_single [] j nodollar_nil
  | j :: y :: u => by
    have ih := emits_placeholder_list (y :: u)
    have h1 : EmitsTokens ('$' :: natDigits j) [natDigits j] := by
      simpa using emits_single [] j nodollar_nil
    have h := emits_append_sep ('$' :: natDigits j) _ [natDigits j]
      ((y :: u).map natDigits) [',', ' '] h1 ih (nodollar_of _ (by decide)) rfl (by decide)
    show EmitsTokens (sIntercalate ", "
      (("$" ++ natStr j) :: ("$" ++ natStr y) :: u.map (fun j => "$" ++ natStr j))).data
      (natDigits j :: natDigits y :: u.map natDigits)
    have e : (sIntercalate ", "
        (("$" ++ natStr j) :: ("$" ++ natStr y) :: u.map (fun j => "$" ++ natStr j))).data =
        '$' :: natDigits j ++ [',', ' '] ++
          (sIntercalate ", " (("$" ++ natStr y) :: u.map (fun j => "$" ++ natStr j))).data := by
      show (("$" ++ natStr j) ++ ", " ++
        sIntercalate ", " (("$" ++ natStr y) :: u.map (fun j => "$" ++ natStr j))).data = _
      rw [String.data_append, String.data_append]
      rfl
    rw [e]
    simpa using h

/-- The qualified column name contains no `$` when its inputs do not. -/
theorem qual_nodollar (col : String) (mt : Option String) (joins : List QueryJoin)
    (hcol : NoDollar col.data)
    (hj : ∀ j ∈ joins, NoDollar j.joinTable.data)
    (hm : ∀ t, mt = some t → NoDollar t.data) :
    NoDollar (getQualifiedColumnName col mt joins).data := by
  unfold getQualifiedColumnName
  cases hfind : joins.find? (fun j => j.selectColumns.contains col) with
  | some j =>
    have hjt := hj j (List.mem_of_find?_eq_some hfind)
    show NoDollar ("\"" ++ j.joinTable ++ "\".\"" ++ col ++ "\"").data
    simp only [String.data_append]
    exact nodollar_append (nodollar_append (nodollar_append
      (nodollar_append (nodollar_of _ (by decide)) hjt)
      (nodollar_of _ (by decide))) hcol) (nodollar_of _ (by decide))
  | none =>
    by_cases hc : joins.length > 0 && tableTruthy mt
    · simp only [hc, if_true]
      have ht : ∃ t, mt = some t := by
        rcases mt with _ | t
        · simp [tableTruthy] at hc
        · exact ⟨t, rfl⟩
      rcases ht with ⟨t, rfl⟩
      have htd := hm t rfl
      show NoDollar ("\"" ++ (some t).getD "" ++ "\".\"" ++ col ++ "\"").data
      rw [Option.getD_some]
      simp only [String.data_append]
      exact nodollar_append (nodollar_append (nodollar_append
        (nodollar_append (nodollar_of _ (by decide)) htd)
        (nodollar_of _ (by decide))) hcol) (nodollar_of _ (by decide))
    · simp only [hc, if_false]
      show NoDollar ("\"" ++ col ++ "\"").data
      simp only [String.data_append]
      exact nodollar_append (nodollar_append (nodollar_of _ (by decide)) hcol)
        (nodollar_of _ (by decide))

/-- A condition of shape `qc ++ sep ++ "$" ++ digits` emits exactly that one
placeholder. -/
theorem emits_cond_sep (qc : String) (sep : List Char) (i : Nat)
    (hq : NoDollar qc.data) (hsep : NoDollar sep)
    (c : List Char) (hshape : c = qc.data ++ (sep ++ '$' :: natDigits i)) :
    EmitsTokens c [natDigits i] := by
  subst hshape
  rw [← List.append_assoc]
  exact emits_single (qc.data ++ sep) i (nodollar_append hq hsep)

theorem wherePiece_none_params (joins : List QueryJoin) (mt : Option String)
    (f : QueryFilter) (i : Nat) (h : (wherePiece joins mt f i).1 = none) :
    (wherePiece joins mt f i).2.1 = [] := by
  rcases f with ⟨col, op, v⟩
  cases op <;> simp only [wherePiece] at h ⊢ <;> try cases h
  case in' =>
    rcases v with _ | sv
    · rfl
    · rcases sv with s | xs
      · rfl
      · by_cases hx : xs.length > 0
        · simp [hx] at h
        · simp [hx]
  case not_in =>
    rcases v with _ | sv
    · rfl
    · rcases sv with s | xs
      · rfl
      · by_cases hx : xs.length > 0
        · simp [hx] at h
        · simp [hx]

theorem wherePiece_idx (joins : List QueryJoin) (mt : Option String)
    (f : QueryFilter) (i : Nat) :
    (wherePiece joins mt f i).2.2 = i + (wherePiece joins mt f i).2.1.length := by
  rcases f with ⟨col, op, v⟩
  cases op <;> simp only [wherePiece] <;> try simp
  case in' =>
    rcases v with _ | sv
    · simp
    · rcases sv with s | xs
      · simp
      · by_cases hx : xs.length > 0 <;> simp [hx]
  case not_in =>
    rcases v with _ | sv
    · simp
    · rcases sv with s | xs
      · simp
      · by_cases hx : xs.length > 0 <;> simp [hx]

theorem wherePiece_emits (joins : List QueryJoin) (mt : Option String)
    (f : QueryFilter) (i : Nat)
    (hcol : NoDollar f.column.data)
    (hj : ∀ j ∈ joins, NoDollar j.joinTable.data)
    (hm : ∀ t, mt = some t → NoDollar t.data) :
    ∀ c, (wherePiece joins mt f i).1 = some c →
      EmitsTokens c.data
        ((List.range' i (wherePiece joins mt f i).2.1.length).map natDigits) := by
  have hq := qual_nodollar f.column mt joins hcol hj hm
  rcases f with ⟨col, op, v⟩
  intro c hc
  cases op
  case eq =>
    simp only [wherePiece] at hc ⊢
    cases hc
    simp only [List.length_singleton, List.range'_one, List.map_singleton]
    refine emits_cond_sep _ [' ', '=', ' '] i hq (nodollar_of _ (by decide)) _ ?_
    rw [String.data_append, String.data_append, List.append_assoc]
    rfl
  case ne =>
    simp only [wherePiece] at hc ⊢
    cases hc
    simp only [List.length_singleton, List.range'_one, List.map_singleton]
    refine emits_cond_sep _ [' ', '!', '=', ' '] i hq (nodollar_of _ (by decide)) _ ?_
    rw [String.data_append, String.data_append, List.append_assoc]
    rfl
  case gt =>
    simp only [wherePiece] at hc ⊢
    cases hc
    simp only [List.length_singleton, List.range'_one, List.map_singleton]
    refine emits_cond_sep _ [' ', '>', ' '] i hq (nodollar_of _ (by decide)) _ ?_
    rw [String.data_append, String.data_append, List.append_assoc]
    rfl
  case gte =>
    simp only [wherePiece] at hc ⊢
    cases hc
    simp only [List.length_singleton, List.range'_one, List.map_singleton]
    refine emits_cond_sep _ [' ', '>', '=', ' '] i hq (nodollar_of _ (by decide)) _ ?_
    rw [String.data_append, String.data_append, List.append_assoc]
    rfl
  case lt =>
    simp only [wherePiece] at hc ⊢
    cases hc
    simp only [List.length_singleton, List.range'_one, List.map_singleton]
    refine emits_cond_sep _ [' ', '<', ' '] i hq (nodollar_of _ (by decide)) _ ?_
    rw [String.data_append, String.data_append, List.append_assoc]
    rfl
  case lte =>
    simp only [wherePiece] at hc ⊢
    cases hc
    simp only [List.length_singleton, List.range'_one, List.map_singleton]
    refine emits_cond_sep _ [' ', '<', '=', ' '] i hq (nodollar_of _ (by decide)) _ ?_
    rw [String.data_append, String.data_append, List.append_assoc]
    rfl
  case like =>
    simp only [wherePiece] at hc ⊢
    cases hc
    simp only [List.length_singleton, List.range'_one, List.map_singleton]
    refine emits_cond_sep _ [' ', 'I', 'L', 'I', 'K', 'E', ' '] i hq
      (nodollar_of _ (by decide)) _ ?_
    rw [String.data_append, String.data_append, List.append_assoc]
    rfl
  case is_null =>
    simp only [wherePiece] at hc ⊢
    cases hc
    simp only [List.length_nil, List.range'_zero, List.map_nil]
    refine emits_nodollar _ ?_
    rw [String.data_append]
    exact nodollar_append hq (nodollar_of _ (by decide))
  case is_not_null =>
    simp only [wherePiece] at hc ⊢
    cases hc
    simp only [List.length_nil, List.range'_zero, List.map_nil]
    refine emits_nodollar _ ?_
    rw [String.data_append]
    exact nodollar_append hq (nodollar_of _ (by decide))
  case in' =>
    rcases v with _ | sv
    · simp [wherePiece] at hc
    · rcases sv with s | xs
      · simp [wherePiece] at hc
      · by_cases hx : xs.length > 0
        · simp only [wherePiece, hx, if_true] at hc ⊢
          cases hc
          have hinner := emits_placeholder_list (List.range' i xs.length)
          have hml : (xs.map (fun x => some (StrOrList.s x))).length = xs.length :=
            List.length_map ..
          rw [hml]
          have hwrap := emits_wrap
            ((getQualifiedColumnName col mt joins).data ++ [' ', 'I', 'N', ' ', '('])
            _ [')'] _ hinner
            (nodollar_append hq (nodollar_of _ (by decide)))
            (nodollar_of _ (by decide)) rfl
          have hshape : ((getQualifiedColumnName col mt joins) ++ " IN (" ++
              sIntercalate ", " ((List.range' i xs.length).map
                (fun j => "$" ++ natStr j)) ++ ")").data =
              ((getQualifiedColumnName col mt joins).data ++ [' ', 'I', 'N', ' ', '(']) ++
              ((sIntercalate ", " ((List.range' i xs.length).map
                (fun j => "$" ++ natStr j))).data ++ [')']) := by
            rw [String.data_append, String.data_append, String.data_append,
              List.append_assoc, List.append_assoc]
          rw [hshape]
          exact hwrap
        · simp [wherePiece, hx] at hc
  case not_in =>
    rcases v with _ | sv
    · simp [wherePiece] at hc
    · rcases sv with s | xs
      · simp [wherePiece] at hc
      · by_cases hx : xs.length > 0
        · simp only [wherePiece, hx, if_true] at hc ⊢
          cases hc
          have hinner := emits_placeholder_list (List.range' i xs.length)
          have hml : (xs.map (fun x => some (StrOrList.s x))).length = xs.length :=
            List.length_map ..
          rw [hml]
          have hwrap := emits_wrap
            ((getQualifiedColumnName col mt joins).data ++
              [' ', 'N', 'O', 'T', ' ', 'I', 'N', ' ', '('])
            _ [')'] _ hinner
            (nodollar_append hq (nodollar_of _ (by decide)))
            (nodollar_of _ (by decide)) rfl
          have hshape : ((getQualifiedColumnName col mt joins) ++ " NOT IN (" ++
              sIntercalate ", " ((List.range' i xs.length).map
                (fun j => "$" ++ natStr j)) ++ ")").data =
              ((getQualifiedColumnName col mt joins).data ++
                [' ', 'N', 'O', 'T', ' ', 'I', 'N', ' ', '(']) ++
              ((sIntercalate ", " ((List.range' i xs.length).map
                (fun j => "$" ++ natStr j))).data ++ [')']) := by
            rw [String.data_append, String.data_append, String.data_append,
              List.append_assoc, List.append_assoc]
          rw [hshape]
          exact hwrap
        · simp [wherePiece, hx] at hc

theorem buildWhereAux_conds_nil (joins : List QueryJoin) (mt : Option String) :
    ∀ (fs : List QueryFilter) (i : Nat),
      (buildWhereAux joins mt fs i).1 = [] → (buildWhereAux joins mt fs i).2 = []
  | [], _ => by intro _; rfl
  | f :: fs, i => by
    intro h
    simp only [buildWhereAux] at h ⊢
    cases hp : (wherePiece joins mt f i).1 with
    | some c => simp [hp] at h
    | none =>
      simp only [hp] at h
      rw [wherePiece_none_params joins mt f i hp, List.nil_append]
      exact buildWhereAux_conds_nil joins mt fs _ h

theorem buildWhereAux_emits (joins : List QueryJoin) (mt : Option String)
    (hj : ∀ j ∈ joins, NoDollar j.joinTable.data)
    (hm : ∀ t, mt = some t → NoDollar t.data) :
    ∀ (fs : List QueryFilter) (i : Nat),
      (∀ f ∈ fs, NoDollar f.column.data) →
      EmitsTokens (sIntercalate " AND " (buildWhereAux joins mt fs i).1).data
        ((List.range' i (buildWhereAux joins mt fs i).2.length).map natDigits)
  | [], i => by
    intro _ rest h
    rfl
  | f :: fs, i => by
    intro hfs
    have hfcol := hfs f (List.mem_cons_self ..)
    have hrest : ∀ g ∈ fs, NoDollar g.column.data :=
      fun g hg => hfs g (List.mem_cons_of_mem _ hg)
    have ih := buildWhereAux_emits joins mt hj hm fs (wherePiece joins mt f i).2.2 hrest
    have hidx := wherePiece_idx joins mt f i
    simp only [buildWhereAux]
    cases hp : (wherePiece joins mt f i).1 with
    | none =>
      have hnp := wherePiece_none_params joins mt f i hp
      rw [hnp] at hidx
      simp only [List.length_nil, Nat.add_zero] at hidx
      rw [hidx] at ih
      simp only [hp, hnp, List.nil_append]
      rw [hidx]
      exact ih
    | some c =>
      have hcemit := wherePiece_emits joins mt f i hfcol hj hm c hp
      simp only [hp]
      rw [List.length_append]
      cases hr : (buildWhereAux joins mt fs (wherePiece joins mt f i).2.2).1 with
      | nil =>
        have hpnil := buildWhereAux_conds_nil joins mt fs _ hr
        rw [hpnil]
        exact hcemit
      | cons d t =>
        rw [hr] at ih
        have hcomb := emits_append_sep c.data
          (sIntercalate " AND " (d :: t)).data
          ((List.range' i (wherePiece joins mt f i).2.1.length).map natDigits)
          ((List.range' (wherePiece joins mt f i).2.2
            (buildWhereAux joins mt fs (wherePiece joins mt f i).2.2).2.length).map natDigits)
          [' ', 'A', 'N', 'D', ' '] hcemit ih (nodollar_of _ (by decide)) rfl (by decide)
        have hshape : (sIntercalate " AND " (c :: d :: t)).data =
            c.data ++ [' ', 'A', 'N', 'D', ' '] ++ (sIntercalate " AND " (d :: t)).data := by
          show (c ++ " AND " ++ sIntercalate " AND " (d :: t)).data = _
          rw [String.data_append, String.data_append]
        rw [hshape]
        have htok : ((List.range' i (wherePiece joins mt f i).2.1.length).map natDigits) ++
            ((List.range' (wherePiece joins mt f i).2.2
              (buildWhereAux joins mt fs (wherePiece joins mt f i).2.2).2.length).map natDigits) =
            (List.range' i ((wherePiece joins mt f i).2.1.length +
              (buildWhereAux joins mt fs (wherePiece joins mt f i).2.2).2.length)).map
                natDigits := by
          rw [← List.map_append, hidx, List.range'_append_1, Nat.add_comm]
        rw [← htok]
        exact hcomb

/-- The placeholder tokens of a compiled read-path WHERE clause are exactly
`$1 … $n` in order, where `n` is the length of the parameter list. -/
theorem buildWhereClause_tokens (filters : List QueryFilter)
    (joins : List QueryJoin) (mt : Option String)
    (hf : ∀ f ∈ filters, NoDollar f.column.data)
    (hj : ∀ j ∈ joins, NoDollar j.joinTable.data)
    (hm : ∀ t, mt = some t → NoDollar t.data) :
    placeholders (buildWhereClause filters joins mt).1 =
      (List.range' 1 (buildWhereClause filters joins mt).2.length).map natStr := by
  have h := buildWhereAux_emits joins mt hj hm filters 1 hf
  have h2 := h [] trivial
  rw [List.append_nil] at h2
  have hnil : phRun .idle [] = ([] : List (List Char)) := rfl
  rw [hnil, List.append_nil] at h2
  show ((phRun .idle (sIntercalate " AND " (buildWhereAux joins mt filters 1).1).data).map
    String.mk) = _
  rw [h2, List.map_map]
  rfl

/-! ## Matcher, iteration, and splitting lemmas -/

/-- A successful pattern match survives appending text (with any extra
fuel): the match consumes only a prefix. -/
theorem matchPatsF_append : ∀ (fuel k : Nat) (ps : List Pat) (s t : List Char),
    matchPatsF fuel ps s = true → matchPatsF (fuel + k) ps (s ++ t) = true := by
  intro fuel
  induction fuel with
  | zero =>
    intro k ps s t h
    simp [matchPatsF] at h
  | succ f ih =>
    intro k ps s t h
    have hk : f + 1 + k = (f + k) + 1 := by omega
    rw [hk]
    cases ps with
    | nil => simp [matchPatsF]
    | cons p ps =>
      cases p with
      | lit l =>
        simp only [matchPatsF, Bool.and_eq_true] at h ⊢
        obtain ⟨h1, h2⟩ := h
        have hpre : l <+: s := List.isPrefixOf_iff_prefix.mp h1
        refine ⟨List.isPrefixOf_iff_prefix.mpr (hpre.trans (List.prefix_append s t)), ?_⟩
        rw [List.drop_append_of_le_length hpre.length_le]
        exact ih k ps _ t h2
      | ws0 =>
        simp only [matchPatsF, Bool.or_eq_true] at h ⊢
        rcases h with h | h
        · exact Or.inl (ih k ps s t h)
        · right
          cases s with
          | nil => simp at h
          | cons c rest =>
            simp only [List.cons_append, Bool.and_eq_true] at h ⊢
            exact ⟨h.1, ih k (Pat.ws0 :: ps) rest t h.2⟩
      | ws1 =>
        simp only [matchPatsF] at h ⊢
        cases s with
        | nil => simp at h
        | cons c rest =>
          simp only [List.cons_append, Bool.and_eq_true] at h ⊢
          exact ⟨h.1, ih k (Pat.ws0 :: ps) rest t h.2⟩
      | alt ls =>
        simp only [matchPatsF, List.any_eq_true, Bool.and_eq_true] at h ⊢
        obtain ⟨l, hl, h1, h2⟩ := h
        have hpre : l <+: s := List.isPrefixOf_iff_prefix.mp h1
        refine ⟨l, hl,
          List.isPrefixOf_iff_prefix.mpr (hpre.trans (List.prefix_append s t)), ?_⟩
        rw [List.drop_append_of_le_length hpre.length_le]
        exact ih k ps _ t h2
      | wsc =>
        simp only [matchPatsF] at h ⊢
        cases s with
        | nil => simp at h
        | cons c rest =>
          simp only [List.cons_append, Bool.and_eq_true] at h ⊢
          exact ⟨h.1, ih k ps rest t h.2⟩

/-- Iterating a check that can only fail with Forbidden fails with Forbidden
as soon as some element fails. -/
theorem exFor_forbidden {α : Type} (l : List α) (f : α → Except Err Unit)
    (hok : ∀ a, f a = .ok () ∨ ∃ m, f a = .error (.forbidden m))
    (hbad : ∃ a ∈ l, f a ≠ .ok ()) :
    ∃ m, exFor l f = .error (.forbidden m) := by
  induction l with
  | nil => simp at hbad
  | cons a t ih =>
    rcases hok a with ha | ⟨m, ha⟩
    · obtain ⟨b, hb, hbne⟩ := hbad
      rcases List.mem_cons.mp hb with rfl | hbt
      · exact absurd ha hbne
      · obtain ⟨m, hm⟩ := ih ⟨b, hbt, hbne⟩
        refine ⟨m, ?_⟩
        show (f a >>= fun _ => exFor t f) = _
        rw [ha]
        exact hm
    · refine ⟨m, ?_⟩
      show (f a >>= fun _ => exFor t f) = _
      rw [ha]
      rfl

theorem exFor_cons_ok {α : Type} {f : α → Except Err Unit} {a : α}
    (t : List α) (h : f a = .ok ()) : exFor (a :: t) f = exFor t f := by
  show (f a >>= fun _ => exFor t f) = _
  rw [h]
  rfl

theorem exFor_cons_error {α : Type} {f : α → Except Err Unit} {a : α}
    (t : List α) {e : Err} (h : f a = .error e) : exFor (a :: t) f = .error e := by
  show (f a >>= fun _ => exFor t f) = _
  rw [h]
  rfl

theorem splitChAux_ne_nil (sep : Char) (l : List Char) : splitChAux sep l ≠ [] := by
  cases l with
  | nil => simp [splitChAux]
  | cons c cs =>
    simp only [splitChAux]
    cases h : splitChAux sep cs with
    | nil => simp
    | cons a b => by_cases hc : c = sep <;> simp [hc]

/-- Split pieces never contain the separator. -/
theorem splitChAux_no_sep (sep : Char) :
    ∀ (l p : List Char), p ∈ splitChAux sep l → sep ∉ p := by
  intro l
  induction l with
  | nil =>
    intro p hp
    simp [splitChAux] at hp
    subst hp
    simp
  | cons c cs ih =>
    intro p hp
    simp only [splitChAux] at hp
    cases h : splitChAux sep cs with
    | nil =>
      rw [h] at hp
      simp at hp
      subst hp
      simp
    | cons a b =>
      rw [h] at hp
      by_cases hc : c = sep
      · simp [hc] at hp
        rcases hp with hp | hp | hp
        · subst hp; simp
        · rw [hp]
          exact ih a (by rw [h]; exact List.mem_cons_self ..)
        · exact ih p (by rw [h]; exact List.mem_cons_of_mem _ hp)
      · simp [hc] at hp
        rcases hp with hp | hp
        · subst hp
          simp only [List.mem_cons, not_or]
          exact ⟨fun e => hc e.symm, ih a (by rw [h]; exact List.mem_cons_self ..)⟩
        · exact ih p (by rw [h]; exact List.mem_cons_of_mem _ hp)

theorem mem_of_getLast? {α : Type} {l : List α} {a : α}
    (h : l.getLast? = some a) : a ∈ l := by
  obtain ⟨ys, rfl⟩ := List.getLast?_eq_some_iff.mp h
  simp

theorem jsSplit_mem_no_sep (sep : Char) (s : String) (p : String)
    (hp : p ∈ jsSplit sep s) : sep ∉ p.data := by
  simp only [jsSplit, List.mem_map] at hp
  obtain ⟨q, hq, rfl⟩ := hp
  exact splitChAux_no_sep sep s.data q hq

set_option maxHeartbeats 1000000 in
theorem strToOp_eq_not_in {s : String} (h : strToOp s = some .not_in) :
    s = "not_in" := by
  unfold strToOp at h
  split_ifs at h <;> first | assumption | simp at h

set_option maxHeartbeats 1000000 in
theorem strToOp_eq_is_null {s : String} (h : strToOp s = some .is_null) :
    s = "is_null" := by
  unfold strToOp at h
  split_ifs at h <;> first | assumption | simp at h

set_option maxHeartbeats 1000000 in
theorem strToOp_eq_is_not_null {s : String} (h : strToOp s = some .is_not_null) :
    s = "is_not_null" := by
  unfold strToOp at h
  split_ifs at h <;> first | assumption | simp at h

@[simp] theorem ebind_ok {α β : Type} (a : α) (k : α → Except Err β) :
    (Except.ok a >>= k) = k a := rfl

@[simp] theorem ebind_error {α β : Type} (e : Err) (k : α → Except Err β) :
    ((Except.error e : Except Err α) >>= k) = .error e := rfl

@[simp] theorem epure {α : Type} (a : α) : (pure a : Except Err α) = .ok a := rfl

@[simp] theorem ethrow {α : Type} (e : Err) : (throw e : Except Err α) = .error e := rfl

/-- No filter produced by the key parser ever carries one of the
underscore-containing operator tokens: the resolved token is a single
`_`-split segment, which cannot contain `_`. -/
theorem parseFiltersAux_ops (skip : List String) :
    ∀ (qp : List (String × StrOrList)) (fs : List QueryFilter),
      parseFiltersAux skip qp = .ok fs →
      ∀ f ∈ fs, f.operator ≠ .not_in ∧ f.operator ≠ .is_null ∧ f.operator ≠ .is_not_null
  | [], fs => by
    intro h f hf
    cases h
    cases hf
  | (key, value) :: rest, fs => by
    intro h f hf
    rw [parseFiltersAux] at h
    by_cases hskip : skip.contains key
    · rw [if_pos hskip] at h
      exact parseFiltersAux_ops skip rest fs h f hf
    · rw [if_neg hskip] at h
      by_cases hlen : (jsSplit '_' key).length ≥ 2
      · rw [if_pos hlen] at h
        cases hop : strToOp (((jsSplit '_' key).getLast?).getD "") with
        | none =>
          simp only [hop] at h
          exact parseFiltersAux_ops skip rest fs h f hf
        | some op =>
          simp only [hop] at h
          have hopsafe : op ≠ .not_in ∧ op ≠ .is_null ∧ op ≠ .is_not_null := by
            cases hgl : (jsSplit '_' key).getLast? with
            | none =>
              rw [hgl] at hop
              simp only [Option.getD_none] at hop
              have h0 : strToOp "" = none := by decide
              rw [h0] at hop
              cases hop
            | some seg =>
              rw [hgl] at hop
              simp only [Option.getD_some] at hop
              have hseg : '_' ∉ seg.data :=
                jsSplit_mem_no_sep '_' key seg (mem_of_getLast? hgl)
              refine ⟨?_, ?_, ?_⟩ <;> intro he
              · rw [he] at hop
                rw [strToOp_eq_not_in hop] at hseg
                exact hseg (by decide)
              · rw [he] at hop
                rw [strToOp_eq_is_null hop] at hseg
                exact hseg (by decide)
              · rw [he] at hop
                rw [strToOp_eq_is_not_null hop] at hseg
                exact hseg (by decide)
          cases hvc : validateColumns (.s (sIntercalate "_" (jsSplit '_' key).dropLast)) with
          | error e =>
            rw [hvc] at h
            simp at h
          | ok u =>
            cases u
            rw [hvc] at h
            simp only [ebind_ok] at h
            have hcond : (op = Operator.is_null || op = Operator.is_not_null) = false := by
              simp [hopsafe.2.1, hopsafe.2.2]
            rw [if_neg (by simp [hcond])] at h
            cases hv : validateFilterValue value op with
            | error e =>
              rw [hv] at h
              simp at h
            | ok v =>
              rw [hv] at h
              simp only [ebind_ok, epure] at h
              cases hrest : parseFiltersAux skip rest with
              | error e =>
                rw [hrest] at h
                simp at h
              | ok fs' =>
                rw [hrest] at h
                simp only [ebind_ok, epure] at h
                cases h
                rcases List.mem_cons.mp hf with rfl | hmem
                · exact hopsafe
                · exact parseFiltersAux_ops skip rest fs' hrest f hmem
      · rw [if_neg hlen] at h
        exact parseFiltersAux_ops skip rest fs h f hf

/-- The unreachable-operator property, lifted to `parseAndValidateFilters`. -/
theorem parseAndValidateFilters_ops (skip : List String)
    (qp : List (String × StrOrList)) (fs : List QueryFilter)
    (h : parseAndValidateFilters skip qp = .ok fs) :
    ∀ f ∈ fs, f.operator ≠ .not_in ∧ f.operator ≠ .is_null ∧ f.operator ≠ .is_not_null := by
  unfold parseAndValidateFilters at h
  cases haux : parseFiltersAux skip qp with
  | error e =>
    rw [haux] at h
    simp at h
  | ok l =>
    rw [haux] at h
    simp only [ebind_ok] at h
    by_cases hl : l.length > 10
    · rw [if_pos (by simpa using hl)] at h
      simp at h
    · rw [if_neg (by simpa using hl)] at h
      simp only [epure] at h
      cases h
      exact parseFiltersAux_ops skip qp fs haux

/-- A signature match survives arbitrary surrounding content. -/
theorem anyMalicious_surround (pre s post : String) (h : anyMalicious s = true) :
    anyMalicious (pre ++ s ++ post) = true := by
  simp only [anyMalicious, List.any_eq_true] at h ⊢
  obtain ⟨p, hp, hmatch⟩ := h
  refine ⟨p, hp, ?_⟩
  simp only [testPat, List.any_eq_true] at hmatch ⊢
  obtain ⟨t, ht, hm⟩ := hmatch
  rw [List.mem_tails] at ht
  refine ⟨t ++ post.data.map Char.toLower, ?_, ?_⟩
  · rw [List.mem_tails]
    have hdata : ((pre ++ s ++ post) : String).data = pre.data ++ s.data ++ post.data := by
      simp [String.data_append]
    rw [hdata, List.map_append, List.map_append]
    obtain ⟨u, hu⟩ := ht
    exact ⟨pre.data.map Char.toLower ++ u,
      by rw [List.append_assoc, ← List.append_assoc u, hu, ← List.append_assoc]⟩
  · unfold matchPats at hm ⊢
    have hext := matchPatsF_append (p.length + t.length + 1)
      ((post.data.map Char.toLower).length) p t (post.data.map Char.toLower) hm
    have heq : p.length + (t ++ (post.data.map Char.toLower)).length + 1 =
        p.length + t.length + 1 + (post.data.map Char.toLower).length := by
      simp [List.length_append]
      omega
    rw [heq]
    exact hext

theorem validateInput_malicious (s : String) (h : anyMalicious s = true) :
    validateInput s = .error (.badRequest "Invalid input detected") := by
  simp [validateInput, h]

theorem validateInput_long (s : String) (h : s.length > 1000) :
    exOk (validateInput s) = false := by
  unfold validateInput
  by_cases hm : anyMalicious s
  · simp [hm, exOk]
  · simp [hm, h, exOk]

theorem validateInput_nullbyte (s : String) (h : s.data.contains '\x00' = true) :
    exOk (validateInput s) = false := by
  unfold validateInput
  by_cases hm : anyMalicious s
  · simp [hm, exOk]
  · by_cases hl : s.length > 1000
    · simp [hm, hl, exOk]
    · have hmem : '\x00' ∈ s.data := by simpa using h
      simp [hm, hl, hmem, exOk]

/-! ## Claim theorems -/

/-- C1 counterexample: the key `price_not_in` does not parse to operator
`not_in` with column `price` — the parser takes only the last `_`-segment,
yielding operator `in` and column `price_not`; and `flag_is_null` /
`flag_is_not_null` produce no filter at all (their last segment `null` is
not an operator token). -/
theorem c1_not_in_key_misparsed :
    parseAndValidateFilters skipRead [("price_not_in", .s "1,2")] =
      .ok [⟨"price_not", .in', some (.l ["1", "2"])⟩] ∧
    Operator.in' ≠ Operator.not_in ∧
    ("price_not" : String) ≠ "price" ∧
    parseAndValidateFilters skipRead [("flag_is_null", .s "x")] = .ok [] ∧
    parseAndValidateFilters skipRead [("flag_is_not_null", .s "x")] = .ok [] :=
  ⟨rfl, by decide, by decide, rfl, rfl⟩

/-- C1 (amended): the parser resolves the operator as the single last
underscore-delimited segment of the key (not the longest known operator
suffix).  Hence `price_not_in` parses with operator `in` and column
`price_not`, keys ending in `_is_null`/`_is_not_null` are dropped, and no
parsed filter can ever carry the operators `not_in`, `is_null` or
`is_not_null` (their tokens contain `_`, which a split segment cannot). -/
theorem c1_filter_operator_last_segment :
    parseAndValidateFilters skipRead [("price_not_in", .s "1,2")] =
      .ok [⟨"price_not", .in', some (.l ["1", "2"])⟩] ∧
    parseAndValidateFilters skipRead [("flag_is_null", .s "x")] = .ok [] ∧
    parseAndValidateFilters skipRead [("flag_is_not_null", .s "x")] = .ok [] ∧
    (∀ (skip : List String) (qp : List (String × StrOrList)) (fs : List QueryFilter),
      parseAndValidateFilters skip qp = .ok fs →
      ∀ f ∈ fs, f.operator ≠ .not_in ∧ f.operator ≠ .is_null ∧ f.operator ≠ .is_not_null) :=
  ⟨rfl, rfl, rfl, parseAndValidateFilters_ops⟩

/-- C1 witness: a concretely parsed `id_eq` filter, with the amended
theorem's universal conjunct instantiated on it. -/
theorem c1_filter_operator_last_segment_witness :
    (⟨"id", Operator.eq, some (StrOrList.s "1")⟩ : QueryFilter).operator ≠
      Operator.not_in := by
  have h := c1_filter_operator_last_segment.2.2.2 skipRead [("id_eq", StrOrList.s "1")]
    [⟨"id", Operator.eq, some (StrOrList.s "1")⟩] rfl
  exact (h _ (List.mem_cons_self ..)).1

/-- C2 counterexample: column names that merely contain a blacklisted term
as a substring pass the read-path column check and both mutation payload
checks — the code tests exact (lowercased) set membership, not substrings.
Moreover a read selection containing the wildcard `*` returns before the
column blacklist loop, so even an explicitly listed forbidden name passes. -/
theorem c2_substring_columns_pass :
    containsSub "password" "password_hash" = true ∧
    validateQuery ["t"] ⟨"t", .l ["password_hash"], [], [], none, none, none, none⟩ =
      .ok () ∧
    containsSub "secret" "client_secret" = true ∧
    validateDataForInsert [("client_secret", .s "x")] = .ok () ∧
    containsSub "token" "api_token" = true ∧
    validateDataForUpdate [("api_token", .s "x")] = .ok () ∧
    validateQuery ["t"] ⟨"t", .l ["password", "*"], [], [], none, none, none, none⟩ =
      .ok () :=
  ⟨by decide, rfl, by decide, rfl, by decide, rfl, rfl⟩

/-- C2 (amended): the blacklist rejection applies exactly to the
(lowercased) names `password`, `secret`, `token`, `private_key`, and on
the read path only when the selection does not include the wildcard `*`:
a selection containing `*` skips the column blacklist entirely and passes
even if a forbidden name is also listed. The same exact-match check
applies to both CREATE and UPDATE payload keys; substring-only matches
are never rejected (see the counterexample). -/
theorem c2_forbidden_exact_match :
    (∀ (allowed : List String) (p : QueryParams),
      allowed.contains p.table = true → p.joins = [] →
      (solList p.columns).contains "*" = false →
      (∃ c ∈ solList p.columns, forbiddenColumns.contains (lowerStr c) = true) →
      ∃ m, validateQuery allowed p = .error (.forbidden m)) ∧
    (∀ (allowed : List String) (p : QueryParams),
      allowed.contains p.table = true → p.joins = [] →
      (solList p.columns).contains "*" = true →
      validateQuery allowed p = .ok ()) ∧
    (∀ (data : List (String × StrOrList)),
      (∃ kv ∈ data, forbiddenColumns.contains (lowerStr kv.1) = true) →
      ∃ m, validateDataForInsert data = .error (.forbidden m)) ∧
    (∀ (data : List (String × StrOrList)),
      (∃ kv ∈ data, forbiddenColumns.contains (lowerStr kv.1) = true) →
      ∃ m, validateDataForUpdate data = .error (.forbidden m)) := by
  refine ⟨?_, ?_, ?_, ?_⟩
  · intro allowed p htab hjoins hstar hbad
    unfold validateQuery
    simp only [htab, Bool.not_true, Bool.false_eq_true, if_false, hjoins, exFor,
      ebind_ok, hstar]
    obtain ⟨c, hcmem, hcf⟩ := hbad
    have hcf2 : lowerStr c ∈ forbiddenColumns := by simpa using hcf
    exact exFor_forbidden _ _
      (fun a => by
        by_cases hc : lowerStr a ∈ forbiddenColumns
        · exact Or.inr ⟨"Column '" ++ a ++ "' is not accessible", by simp [hc]⟩
        · exact Or.inl (by simp [hc]))
      ⟨c, hcmem, by simp [hcf2]⟩
  · intro allowed p htab hjoins hstar
    unfold validateQuery
    simp only [htab, Bool.not_true, Bool.false_eq_true, if_false, hjoins, exFor,
      ebind_ok, hstar, if_true]
    rfl
  · intro data hbad
    obtain ⟨kv, hkvmem, hkvf⟩ := hbad
    have hne : data.isEmpty = false := by
      cases data with
      | nil => cases hkvmem
      | cons a t => rfl
    unfold validateDataForInsert
    simp only [hne, Bool.false_eq_true, if_false, ebind_ok]
    obtain ⟨m, hm⟩ := exFor_forbidden data
      (fun kv => if forbiddenColumns.contains (lowerStr kv.1) = true then
        Except.error (.forbidden ("Column '" ++ kv.1 ++ "' is not accessible for modification"))
        else .ok ())
      (fun a => by
        by_cases hc : lowerStr a.1 ∈ forbiddenColumns
        · exact Or.inr ⟨"Column '" ++ a.1 ++ "' is not accessible for modification",
            by simp [hc]⟩
        · exact Or.inl (by simp [hc]))
      ⟨kv, hkvmem, by
        have hkvf2 : lowerStr kv.1 ∈ forbiddenColumns := by simpa using hkvf
        simp [hkvf2]⟩
    rw [hm]
    exact ⟨m, rfl⟩
  · intro data hbad
    obtain ⟨kv, hkvmem, hkvf⟩ := hbad
    have hne : data.isEmpty = false := by
      cases data with
      | nil => cases hkvmem
      | cons a t => rfl
    unfold validateDataForUpdate
    simp only [hne, Bool.false_eq_true, if_false, ebind_ok]
    obtain ⟨m, hm⟩ := exFor_forbidden data
      (fun kv => if forbiddenColumns.contains (lowerStr kv.1) = true then
        Except.error (.forbidden ("Column '" ++ kv.1 ++ "' is not accessible for modification"))
        else .ok ())
      (fun a => by
        by_cases hc : lowerStr a.1 ∈ forbiddenColumns
        · exact Or.inr ⟨"Column '" ++ a.1 ++ "' is not accessible for modification",
            by simp [hc]⟩
        · exact Or.inl (by simp [hc]))
      ⟨kv, hkvmem, by
        have hkvf2 : lowerStr kv.1 ∈ forbiddenColumns := by simpa using hkvf
        simp [hkvf2]⟩
    rw [hm]
    exact ⟨m, rfl⟩

/-- C2 witness: exact-name hits are rejected with Forbidden on the read,
CREATE and UPDATE paths, and a wildcard read selection passes. -/
theorem c2_forbidden_exact_match_witness :
    (∃ m, validateQuery ["t"] ⟨"t", .l ["password"], [], [], none, none, none, none⟩ =
      .error (.forbidden m)) ∧
    validateQuery ["t"] ⟨"t", .l ["*"], [], [], none, none, none, none⟩ = .ok () ∧
    (∃ m, validateDataForInsert [("secret", .s "x")] = .error (.forbidden m)) ∧
    (∃ m, validateDataForUpdate [("token", .s "x")] = .error (.forbidden m)) := by
  have h := c2_forbidden_exact_match
  exact ⟨h.1 ["t"] _ (by decide) rfl (by decide) ⟨"password", by decide, by decide⟩,
    h.2.1 ["t"] _ (by decide) rfl (by decide),
    h.2.2.1 _ ⟨("secret", .s "x"), by decide, by decide⟩,
    h.2.2.2 _ ⟨("token", .s "x"), by decide, by decide⟩⟩

/-- C3: an UPDATE or DELETE request whose parsed filter list is empty fails
with the controller's missing-filter error before the permission check, the
body check, and any SQL compilation; the DELETE service additionally
carries its own guard. -/
theorem c3_empty_filters_missing_filter
    (perms : List (String × WritePermission)) (allowed : List String)
    (apiKey table : String) (bodyData : Option (List (String × StrOrList)))
    (retCols : Option (List String)) (qp : List (String × StrOrList))
    (htab : validateTableName table = .ok ())
    (hparse : parseAndValidateFilters skipCrud qp = .ok [])
    (hallow : allowed.contains table = true) :
    updateRecordPipeline perms allowed apiKey table bodyData retCols qp =
      .error (.jsError "UPDATE operations require at least one filter to prevent accidental mass updates") ∧
    deleteRecordPipeline perms allowed apiKey table retCols qp =
      .error (.jsError "DELETE operations require at least one filter to prevent accidental mass deletions") ∧
    deleteRecordService allowed ⟨table, [], retCols⟩ =
      .error (.badRequest "DELETE operations require at least one filter to prevent accidental data loss") := by
  refine ⟨?_, ?_, ?_⟩
  · unfold updateRecordPipeline
    simp [htab, hparse]
  · unfold deleteRecordPipeline
    simp [htab, hparse]
  · have hallow2 : table ∈ allowed := by simpa using hallow
    unfold deleteRecordService validateTable validateUpdateFilters
    simp [hallow2]

/-- C3 witness: a concrete filterless UPDATE/DELETE request on an
allow-listed table. -/
theorem c3_empty_filters_missing_filter_witness :
    updateRecordPipeline [] ["users"] "k" "users" none none [] =
      .error (.jsError "UPDATE operations require at least one filter to prevent accidental mass updates") ∧
    deleteRecordPipeline [] ["users"] "k" "users" none [] =
      .error (.jsError "DELETE operations require at least one filter to prevent accidental mass deletions") ∧
    deleteRecordService ["users"] ⟨"users", [], none⟩ =
      .error (.badRequest "DELETE operations require at least one filter to prevent accidental data loss") :=
  c3_empty_filters_missing_filter [] ["users"] "k" "users" none none [] rfl rfl (by decide)

/-- C4 counterexample: a filter value containing only a comment marker
passes read-path value validation — the read-path signature list (unlike
the mutation-path one) contains no comment-marker pattern. -/
theorem c4_comment_marker_passes :
    containsSub "--" "a -- b" = true ∧
    validateInput "a -- b" = .ok () ∧
    containsSub "/*" "a /* b */" = true ∧
    validateInput "a /* b */" = .ok () :=
  ⟨by decide, rfl, by decide, rfl⟩

/-- C4 (amended): read-path value validation rejects every string matching
one of its twelve fixed signatures (statement-terminator + DDL/DML keyword,
UNION SELECT, script/javascript/data-URI markers, eval/expression/exec call
patterns, xp_/sp_cmdshell, waitfor delay, convert(int) regardless of
surrounding content, and rejects length > 1000 and embedded null bytes —
but bare comment markers are not among the read-path signatures. -/
theorem c4_read_path_signature_rejection :
    (∀ s : String, anyMalicious s = true →
      validateInput s = .error (.badRequest "Invalid input detected")) ∧
    (∀ s : String, s.length > 1000 → exOk (validateInput s) = false) ∧
    (∀ s : String, s.data.contains '\x00' = true → exOk (validateInput s) = false) ∧
    (∀ pre s post : String, anyMalicious s = true →
      anyMalicious (pre ++ s ++ post) = true) :=
  ⟨validateInput_malicious, validateInput_long, validateInput_nullbyte,
    anyMalicious_surround⟩

set_option maxRecDepth 8192 in
/-- C4 witness: a concrete injection string, an over-long string, a
null-byte string, and a surrounded injection string. -/
theorem c4_read_path_signature_rejection_witness :
    validateInput "1; DROP TABLE users" = .error (.badRequest "Invalid input detected") ∧
    exOk (validateInput (String.mk (List.replicate 1001 'a'))) = false ∧
    exOk (validateInput (String.mk ['a', '\x00', 'b'])) = false ∧
    anyMalicious ("x" ++ "1; DROP TABLE users" ++ "y") = true := by
  refine ⟨?_, ?_, ?_, ?_⟩
  · exact c4_read_path_signature_rejection.1 _ (by decide)
  · exact c4_read_path_signature_rejection.2.1 _ (by decide)
  · exact c4_read_path_signature_rejection.2.2.1 _ (by decide)
  · exact c4_read_path_signature_rejection.2.2.2 "x" _ "y" (by decide)

/-- The C5 scenario request: table `products`, columns `id,name,price`,
filters `price_gte=10` and `price_lt=100`, `limit=20`, `offset=0`. -/
def c5Params : QueryParams :=
  ⟨"products", .l ["id", "name", "price"],
   [⟨"price", .gte, some (.s "10")⟩, ⟨"price", .lt, some (.s "100")⟩],
   [], some (.int 20), some (.int 0), none, some "ASC"⟩

/-- C5 counterexample: with `offset=0` the compiled data SELECT does not
end in `LIMIT 20 OFFSET 0` — the OFFSET clause is omitted because 0 is
falsy (`if (offset)`), so the query ends in `LIMIT 20`. -/
theorem c5_no_offset_zero_suffix :
    executeQueryCompile ["products"] c5Params =
      .ok ⟨"SELECT \"id\", \"name\", \"price\" FROM \"products\" WHERE \"price\" >= $1 AND \"price\" < $2 LIMIT 20",
           "SELECT COUNT(*) as count FROM \"products\" WHERE \"price\" >= $1 AND \"price\" < $2",
           [some (.s "10"), some (.s "100")]⟩ ∧
    sEndsWith "SELECT \"id\", \"name\", \"price\" FROM \"products\" WHERE \"price\" >= $1 AND \"price\" < $2 LIMIT 20"
      "LIMIT 20 OFFSET 0" = false :=
  ⟨rfl, by decide⟩

/-- C5 (amended): the compiled data SELECT carries exactly the two `price`
WHERE conditions and ends with ` LIMIT 20` (no OFFSET clause, since offset
0 is falsy), while the COUNT statement shares the same WHERE clause and
carries neither LIMIT nor OFFSET. -/
theorem c5_products_compiled_query :
    executeQueryCompile ["products"] c5Params =
      .ok ⟨"SELECT \"id\", \"name\", \"price\" FROM \"products\" WHERE \"price\" >= $1 AND \"price\" < $2 LIMIT 20",
           "SELECT COUNT(*) as count FROM \"products\" WHERE \"price\" >= $1 AND \"price\" < $2",
           [some (.s "10"), some (.s "100")]⟩ ∧
    sEndsWith "SELECT \"id\", \"name\", \"price\" FROM \"products\" WHERE \"price\" >= $1 AND \"price\" < $2 LIMIT 20"
      " LIMIT 20" = true ∧
    containsSub "OFFSET"
      "SELECT \"id\", \"name\", \"price\" FROM \"products\" WHERE \"price\" >= $1 AND \"price\" < $2 LIMIT 20" = false ∧
    containsSub "LIMIT"
      "SELECT COUNT(*) as count FROM \"products\" WHERE \"price\" >= $1 AND \"price\" < $2" = false ∧
    containsSub "OFFSET"
      "SELECT COUNT(*) as count FROM \"products\" WHERE \"price\" >= $1 AND \"price\" < $2" = false ∧
    placeholders "\"price\" >= $1 AND \"price\" < $2" = ["1", "2"] :=
  ⟨rfl, by decide, by decide, by decide, by decide, by decide⟩

/-- C6: an API key without a permission record has every
CREATE/UPDATE/DELETE attempt rejected with the unconditional Forbidden of
`validateWriteOperation` (for any operation, table and record count, and at
the controller level once the preceding request validations pass), while
the read pipeline — which never consults the permission table — succeeds on
a concrete request. -/
theorem c6_no_permission_forbidden
    (perms : List (String × WritePermission)) (key : String)
    (h : List.lookup key perms = none) :
    (∀ (op : Op) (table : String) (n : Int),
      validateWriteOperation perms key op table n =
        .error (.forbidden "Write operations require special API key permissions")) ∧
    (∀ (allowed : List String) (table : String)
      (bodyData : Option (List (String × StrOrList))) (retCols : Option (List String)),
      validateTableName table = .ok () →
      createRecordPipeline perms allowed key table bodyData retCols =
        .error (.forbidden "Write operations require special API key permissions")) ∧
    (∀ (allowed : List String) (table : String)
      (bodyData : Option (List (String × StrOrList))) (retCols : Option (List String))
      (qp : List (String × StrOrList)) (fs : List QueryFilter),
      validateTableName table = .ok () →
      parseAndValidateFilters skipCrud qp = .ok fs → fs ≠ [] →
      updateRecordPipeline perms allowed key table bodyData retCols qp =
        .error (.forbidden "Write operations require special API key permissions") ∧
      deleteRecordPipeline perms allowed key table retCols qp =
        .error (.forbidden "Write operations require special API key permissions")) ∧
    exOk (queryDataPipeline ["products"] "products" "id" []) = true := by
  have hvwo : ∀ (op : Op) (table : String) (n : Int),
      validateWriteOperation perms key op table n =
        .error (.forbidden "Write operations require special API key permissions") := by
    intro op table n
    unfold validateWriteOperation
    rw [h]
  refine ⟨hvwo, ?_, ?_, rfl⟩
  · intro allowed table bodyData retCols htab
    unfold createRecordPipeline
    simp [htab, hvwo]
  · intro allowed table bodyData retCols qp fs htab hparse hfs
    constructor
    · unfold updateRecordPipeline
      simp [htab, hparse, hfs, hvwo]
    · unfold deleteRecordPipeline
      simp [htab, hparse, hfs, hvwo]

/-- C6 witness: the empty permission table and a concrete key. -/
theorem c6_no_permission_forbidden_witness :
    validateWriteOperation [] "k" .CREATE "users" 1 =
      .error (.forbidden "Write operations require special API key permissions") ∧
    updateRecordPipeline [] ["users"] "k" "users" none none [("id_eq", .s "1")] =
      .error (.forbidden "Write operations require special API key permissions") ∧
    exOk (queryDataPipeline ["products"] "products" "id" []) = true := by
  have h := c6_no_permission_forbidden [] "k" rfl
  exact ⟨h.1 .CREATE "users" 1,
    (h.2.2.1 ["users"] "users" none none [("id_eq", .s "1")]
      [⟨"id", .eq, some (.s "1")⟩] rfl rfl (by decide)).1,
    h.2.2.2⟩

/-- C7: `in`/`not_in` values with more than 100 (normalized) elements fail
validation; values with at most 100 elements normalize to the element
list, and an `in`/`not_in` filter over a 1–100 element list contributes
exactly one positional placeholder per element to the compiled WHERE
clause. -/
theorem c7_in_filter_cap_and_placeholders :
    (∀ (v : StrOrList) (op : Operator), op = .in' ∨ op = .not_in →
      ((normElems v).length > 100 →
        validateFilterValue v op = .error (.badRequest "Too many values in IN clause (max 100)")) ∧
      ((normElems v).length ≤ 100 →
        validateFilterValue v op = .ok (.l (normElems v)))) ∧
    (∀ (col : String) (xs : List String) (op : Operator),
      op = .in' ∨ op = .not_in → 1 ≤ xs.length → xs.length ≤ 100 →
      NoDollar col.data →
      (placeholders (buildWhereClause [⟨col, op, some (.l xs)⟩] [] none).1).length =
        xs.length) := by
  constructor
  · intro v op hop
    have hcond : (op = Operator.in' || op = Operator.not_in) = true := by
      rcases hop with rfl | rfl <;> simp
    constructor
    · intro hlong
      unfold validateFilterValue
      rw [if_pos (by simpa using hcond)]
      cases v with
      | s s =>
        simp only [normElems, List.length_map] at hlong
        simp [hlong]
      | l l =>
        simp only [normElems] at hlong
        simp [hlong]
    · intro hshort
      unfold validateFilterValue
      rw [if_pos (by simpa using hcond)]
      cases v with
      | s s =>
        simp only [normElems, List.length_map] at hshort
        have hn : ¬ (jsSplit ',' s).length > 100 := by omega
        simp [hn, normElems]
      | l l =>
        simp only [normElems] at hshort
        have hn : ¬ l.length > 100 := by omega
        simp [hn, normElems]
  · intro col xs op hop h1 h100 hnd
    have hx : xs.length > 0 := h1
    have htok := buildWhereClause_tokens [⟨col, op, some (.l xs)⟩] [] none
      (by
        intro f hf
        rcases List.mem_singleton.mp hf with rfl
        exact hnd)
      (by intro j hj; cases hj)
      (by intro t ht; cases ht)
    rw [htok, List.length_map, List.length_range']
    rcases hop with rfl | rfl <;>
      simp [buildWhereClause, buildWhereAux, wherePiece, hx]

/-- A 101-element comma-separated value, for the C7 witness. -/
def c7big : String := sIntercalate "," (List.replicate 101 "x")

set_option maxRecDepth 8192 in
/-- C7 witness: the cap fires at 101 elements, a 2-element value passes and
compiles to exactly 2 placeholders. -/
theorem c7_in_filter_cap_and_placeholders_witness :
    validateFilterValue (.s c7big) .in' =
      .error (.badRequest "Too many values in IN clause (max 100)") ∧
    validateFilterValue (.s "1,2") .in' = .ok (.l ["1", "2"]) ∧
    (placeholders (buildWhereClause [⟨"id", .in', some (.l ["a", "b"])⟩] [] none).1).length = 2 := by
  have h := c7_in_filter_cap_and_placeholders
  refine ⟨(h.1 (.s c7big) .in' (Or.inl rfl)).1 (by decide), ?_, ?_⟩
  · have h2 := (h.1 (.s "1,2") .in' (Or.inl rfl)).2 (by decide)
    simpa using h2
  · exact h.2 "id" ["a", "b"] .in' (Or.inl rfl) (by decide) (by decide)
      (nodollar_of _ (by decide))

/-- The C8 scenario join (default join type LEFT). -/
def c8Join : QueryJoin := ⟨"regionID", "mapRegions", "regionID", ["regionName"], some "LEFT"⟩

/-- The C8 scenario request: main table `mapSolarSystems`, one join. -/
def c8Params : QueryParams :=
  ⟨"mapSolarSystems", .l ["regionID"], [], [c8Join], none, none, none, some "ASC"⟩

/-- C8: the join request compiles to the expected LEFT JOIN clause (join
type defaulting to LEFT when unspecified), the select list carries the
aliased joined column, and join clauses concatenate in request order. -/
theorem c8_join_compilation :
    parseAndValidateJoins [("join", .s "regionID:mapRegions:regionID:regionName")] =
      .ok [c8Join] ∧
    executeQueryCompile ["mapSolarSystems", "mapRegions"] c8Params =
      .ok ⟨"SELECT \"mapSolarSystems\".\"regionID\", \"mapRegions\".\"regionName\" AS \"mapRegions_regionName\" FROM \"mapSolarSystems\" LEFT JOIN \"mapRegions\" ON \"mapSolarSystems\".\"regionID\" = \"mapRegions\".\"regionID\"",
           "SELECT COUNT(*) as count FROM \"mapSolarSystems\" LEFT JOIN \"mapRegions\" ON \"mapSolarSystems\".\"regionID\" = \"mapRegions\".\"regionID\"",
           []⟩ ∧
    containsSub " LEFT JOIN \"mapRegions\" ON \"mapSolarSystems\".\"regionID\" = \"mapRegions\".\"regionID\""
      "SELECT \"mapSolarSystems\".\"regionID\", \"mapRegions\".\"regionName\" AS \"mapRegions_regionName\" FROM \"mapSolarSystems\" LEFT JOIN \"mapRegions\" ON \"mapSolarSystems\".\"regionID\" = \"mapRegions\".\"regionID\"" = true ∧
    containsSub "\"mapRegions\".\"regionName\" AS \"mapRegions_regionName\""
      "SELECT \"mapSolarSystems\".\"regionID\", \"mapRegions\".\"regionName\" AS \"mapRegions_regionName\" FROM \"mapSolarSystems\" LEFT JOIN \"mapRegions\" ON \"mapSolarSystems\".\"regionID\" = \"mapRegions\".\"regionID\"" = true ∧
    (∀ (t : String) (j1 j2 : QueryJoin),
      buildJoinClauses [j1, j2] t = buildJoinClauses [j1] t ++ buildJoinClauses [j2] t) :=
  ⟨rfl, rfl, by decide, by decide, fun t j1 j2 => rfl⟩

/-- C9: a write permission whose record ceiling is (truthy and) below 100
makes the fixed-estimate pre-check reject every UPDATE and DELETE with
Forbidden — both at the `validateWriteOperation` level with the
controllers' fixed estimate of 100, and at the controller pipelines once
the earlier request validations pass — regardless of how many rows the
filters would affect. -/
theorem c9_low_ceiling_blocks_update_delete
    (perms : List (String × WritePermission)) (key : String) (p : WritePermission)
    (hperm : List.lookup key perms = some p)
    (hlow : p.maxRecordsPerOperation < 100)
    (hnz : p.maxRecordsPerOperation ≠ 0) :
    (∀ table : String,
      resKind (validateWriteOperation perms key .UPDATE table 100) = some .forbidden ∧
      resKind (validateWriteOperation perms key .DELETE table 100) = some .forbidden) ∧
    (∀ (allowed : List String) (table : String)
      (bodyData : Option (List (String × StrOrList))) (retCols : Option (List String))
      (qp : List (String × StrOrList)) (fs : List QueryFilter),
      validateTableName table = .ok () →
      parseAndValidateFilters skipCrud qp = .ok fs → fs ≠ [] →
      resKind (updateRecordPipeline perms allowed key table bodyData retCols qp) =
        some .forbidden ∧
      resKind (deleteRecordPipeline perms allowed key table retCols qp) =
        some .forbidden) := by
  have hvwo : ∀ (op : Op) (table : String),
      ∃ m, validateWriteOperation perms key op table 100 = .error (.forbidden m) := by
    intro op table
    unfold validateWriteOperation
    simp only [hperm]
    split_ifs with h1 h2 h3
    · exact ⟨_, rfl⟩
    · exact ⟨_, rfl⟩
    · exact ⟨_, rfl⟩
    · exfalso
      apply h3
      simp only [Bool.and_eq_true, decide_eq_true_eq]
      exact ⟨hnz, hlow⟩
  constructor
  · intro table
    obtain ⟨m1, hm1⟩ := hvwo .UPDATE table
    obtain ⟨m2, hm2⟩ := hvwo .DELETE table
    rw [hm1, hm2]
    exact ⟨rfl, rfl⟩
  · intro allowed table bodyData retCols qp fs htab hparse hfs
    obtain ⟨m1, hm1⟩ := hvwo .UPDATE table
    obtain ⟨m2, hm2⟩ := hvwo .DELETE table
    constructor
    · unfold updateRecordPipeline
      simp [htab, hparse, hfs, hm1, resKind, Err.kind]
    · unfold deleteRecordPipeline
      simp [htab, hparse, hfs, hm2, resKind, Err.kind]

/-- A permission with ceiling 50, for the C9 witness. -/
def c9perm : WritePermission := ⟨"k", ["*"], [.CREATE, .UPDATE, .DELETE], 50, none⟩

/-- C9 witness: a single-row-style UPDATE request under a 50-record ceiling
is still Forbidden. -/
theorem c9_low_ceiling_blocks_update_delete_witness :
    resKind (validateWriteOperation [("k", c9perm)] "k" .UPDATE "users" 100) =
      some .forbidden ∧
    resKind (updateRecordPipeline [("k", c9perm)] ["users"] "k" "users" none none
      [("id_eq", .s "1")]) = some .forbidden := by
  have h := c9_low_ceiling_blocks_update_delete [("k", c9perm)] "k" c9perm rfl
    (by decide) (by decide)
  refine ⟨(h.1 "users").1, ?_⟩
  exact (h.2 ["users"] "users" none none [("id_eq", .s "1")]
    [⟨"id", .eq, some (.s "1")⟩] rfl rfl (by decide)).1

/-- C10: for every filter list, the compiled read-path WHERE clause and
parameter list are aligned — the placeholder tokens are exactly
`$1 … $n` in order with `n` the parameter count (so no gaps and no
duplicates), and null-check filters contribute a condition but no
parameter. -/
theorem c10_where_clause_placeholder_alignment
    (filters : List QueryFilter) (joins : List QueryJoin) (mt : Option String)
    (hf : ∀ f ∈ filters, NoDollar f.column.data)
    (hj : ∀ j ∈ joins, NoDollar j.joinTable.data)
    (hm : ∀ t, mt = some t → NoDollar t.data) :
    placeholders (buildWhereClause filters joins mt).1 =
      (List.range' 1 (buildWhereClause filters joins mt).2.length).map natStr ∧
    (placeholders (buildWhereClause filters joins mt).1).length =
      (buildWhereClause filters joins mt).2.length ∧
    (∀ (f : QueryFilter) (i : Nat),
      f.operator = .is_null ∨ f.operator = .is_not_null →
      (wherePiece joins mt f i).2.1 = [] ∧ (wherePiece joins mt f i).1 ≠ none) := by
  refine ⟨buildWhereClause_tokens filters joins mt hf hj hm, ?_, ?_⟩
  · rw [buildWhereClause_tokens filters joins mt hf hj hm, List.length_map,
      List.length_range']
  · intro f i hop
    rcases f with ⟨c, op, v⟩
    rcases hop with h | h <;> (simp only at h; subst h; simp [wherePiece])

/-- The C10 witness filter list: one `eq`, one `is_null`, one two-element
`in` filter. -/
def c10fs : List QueryFilter :=
  [⟨"a", .eq, some (.s "1")⟩, ⟨"b", .is_null, none⟩, ⟨"c", .in', some (.l ["x", "y"])⟩]

/-- C10 witness: on the concrete list the placeholder tokens are `1,2,3`. -/
theorem c10_where_clause_placeholder_alignment_witness :
    placeholders (buildWhereClause c10fs [] none).1 = ["1", "2", "3"] := by
  have h := (c10_where_clause_placeholder_alignment c10fs [] none
    (by
      intro f hf
      simp [c10fs] at hf
      rcases hf with rfl | rfl | rfl <;> exact nodollar_of _ (by decide))
    (by intro j hj; cases hj)
    (by intro t ht; cases ht)).1
  rw [h]
  rfl
